import Mathlib

/-!
# Shallow embedding of the stockadviser technical-analysis core

This file embeds, in Lean 4, the computational core of the repository:

* `technical_analysis.py` (`TechnicalAnalyzer`): indicator computation
  (`calculate_all_indicators` and its `_calculate_*` helpers), pattern
  detection (`detect_patterns` and its `_detect_*` helpers) and signal
  generation (`generate_signals`, the per-family `_generate_*_signals`
  helpers and `_generate_combined_signal`);
* `main.py`: the technical/fundamental fusion `_combine_signals`.

Modelling conventions:

* Prices and indicator values are rationals (`ℚ`); a pandas `NaN` cell is
  `none` in an `Option ℚ` column.  Comparisons against `NaN` are `false`,
  as in IEEE floats, and arithmetic on `NaN` yields `NaN` (`none`).
* The repository is exercised with `TALIB_AVAILABLE = False` (loading
  `talib` at the top of `technical_analysis.py` is expected to fail, as
  the comment there says); every indicator below embeds the manual
  fallback branch of its source function.
* IEEE divisions by zero are made explicit at each site: a quotient whose
  denominator can be zero is embedded as `none` (NaN/±inf) except where
  the surrounding formula gives the infinite case a finite value — the
  RSI and MFI transforms `100 − 100/(1+x/0) = 100`, embedded in
  `rsiFromGainLoss` / `mfiFromFlows`.
* Python functions that can raise an exception for some inputs (an
  `IndexError` from `.iloc[-2]` on a too-short column) are embedded with
  result type `Option _`; `none` means "raised".  Functions whose source
  wraps the whole body in `try/except` returning a value are total.
* A pandas `DataFrame` is an association list of named `Option ℚ` columns
  together with its row count; `df['X'] = col` is `setCol`, which
  overwrites an existing column in place or appends a new one at the end,
  exactly as pandas does.
* The floating-point square root used by the Bollinger/ADX standard
  deviations is not exactly representable over `ℚ`; the embedding is
  parametric in it (`SqrtOracle`).  No claim below depends on its values.
* The numeric interpolation inside some human-readable `reason` strings
  (`f'RSI neutral at {x:.2f}'`) is elided; the constant text is kept.
  Dictionary keys that carry raw metric values (`'value'`, `'macd'`,
  `'sma20'`, …) and are never read back by the program are not fields of
  the embedded records.
-/

/-! ## NaN-aware scalar operations (IEEE semantics over `Option ℚ`) -/

/-- `a < b` with NaN: any comparison involving NaN is `false`. -/
def oLt (a b : Option ℚ) : Bool :=
  match a, b with
  | some x, some y => decide (x < y)
  | _, _ => false

/-- `a ≤ b` with NaN: `false` when either side is NaN. -/
def oLe (a b : Option ℚ) : Bool :=
  match a, b with
  | some x, some y => decide (x ≤ y)
  | _, _ => false

/-- `a > b` with NaN: `false` when either side is NaN. -/
def oGt (a b : Option ℚ) : Bool := oLt b a

/-- `a ≥ b` with NaN: `false` when either side is NaN. -/
def oGe (a b : Option ℚ) : Bool := oLe b a

/-- NaN-propagating addition. -/
def oAdd (a b : Option ℚ) : Option ℚ :=
  match a, b with
  | some x, some y => some (x + y)
  | _, _ => none

/-- NaN-propagating subtraction. -/
def oSub (a b : Option ℚ) : Option ℚ :=
  match a, b with
  | some x, some y => some (x - y)
  | _, _ => none

/-- NaN-propagating multiplication. -/
def oMul (a b : Option ℚ) : Option ℚ :=
  match a, b with
  | some x, some y => some (x * y)
  | _, _ => none

/-- NaN-propagating division; a zero denominator (IEEE `±inf`/`NaN`) is
embedded as missing.  The two places where the program gives the infinite
quotient a finite meaning (RSI, MFI) use their own dedicated transforms. -/
def oDiv (a b : Option ℚ) : Option ℚ :=
  match a, b with
  | some x, some y => if y = 0 then none else some (x / y)
  | _, _ => none

/-! ## Column primitives

A column is a `List (Option ℚ)`; index `i` is bar `i` (oldest first).
`iloc1` is pandas `.iloc[-1]` and `iloc2` is `.iloc[-2]`; both yield
`none` exactly when the Python access would raise `IndexError`. -/

/-- `series.iloc[-1]`: the last entry, `none` (exception) on an empty column. -/
def iloc1 (xs : List (Option ℚ)) : Option (Option ℚ) :=
  xs[xs.length - 1]?

/-- `series.iloc[-2]`: the next-to-last entry, `none` (exception) when the
column has fewer than two entries. -/
def iloc2 (xs : List (Option ℚ)) : Option (Option ℚ) :=
  if xs.length < 2 then none else xs[xs.length - 2]?

/-- Trailing window of `w` cells ending at index `i`, fetched by index
(all indices are in range whenever `w ≤ i + 1 ≤ length`). -/
def windowAt (w : Nat) (xs : List (Option ℚ)) (i : Nat) : List (Option ℚ) :=
  (List.range w).map fun k => xs.getD (i + 1 - w + k) none

/-- `series.rolling(window=w).mean()` (pandas default `min_periods = w`):
entry `i` is the mean of the `w` trailing cells, missing while fewer than
`w` observations exist or when the window contains a NaN. -/
def rollingMeanO (w : Nat) (xs : List (Option ℚ)) : List (Option ℚ) :=
  (List.range xs.length).map fun i =>
    if i + 1 < w then none
    else
      let win := windowAt w xs i
      if win.all Option.isSome then some ((win.map (·.getD 0)).sum / w) else none

/-- `series.rolling(window=w).sum()`, same missing-value policy. -/
def rollingSumO (w : Nat) (xs : List (Option ℚ)) : List (Option ℚ) :=
  (List.range xs.length).map fun i =>
    if i + 1 < w then none
    else
      let win := windowAt w xs i
      if win.all Option.isSome then some ((win.map (·.getD 0)).sum) else none

/-- `series.rolling(window=w).min()`, same missing-value policy.  The fold
is seeded with the window's head, which belongs to the window, so the
result is the true window minimum. -/
def rollingMinO (w : Nat) (xs : List (Option ℚ)) : List (Option ℚ) :=
  (List.range xs.length).map fun i =>
    if i + 1 < w then none
    else
      let win := windowAt w xs i
      if win.all Option.isSome then
        some ((win.map (·.getD 0)).foldr min (win.map (·.getD 0)).headI)
      else none

/-- `series.rolling(window=w).max()`, same missing-value policy. -/
def rollingMaxO (w : Nat) (xs : List (Option ℚ)) : List (Option ℚ) :=
  (List.range xs.length).map fun i =>
    if i + 1 < w then none
    else
      let win := windowAt w xs i
      if win.all Option.isSome then
        some ((win.map (·.getD 0)).foldr max (win.map (·.getD 0)).headI)
      else none

/-- `series.diff()`: NaN at index 0, `x[i] − x[i−1]` afterwards. -/
def diffO (xs : List (Option ℚ)) : List (Option ℚ) :=
  (List.range xs.length).map fun i =>
    if i = 0 then none else oSub (xs.getD i none) (xs.getD (i - 1) none)

/-- `series.shift()`: NaN at index 0, `x[i−1]` afterwards. -/
def shiftO (xs : List (Option ℚ)) : List (Option ℚ) :=
  (List.range xs.length).map fun i =>
    if i = 0 then none else xs.getD (i - 1) none

/-- `series.cumsum()` with pandas `skipna=True` semantics: a NaN cell
stays NaN in the output but does not poison the running sum. -/
def cumsumO (xs : List (Option ℚ)) : List (Option ℚ) :=
  (xs.foldl (fun (acc : ℚ × List (Option ℚ)) x =>
      match x with
      | some v => (acc.1 + v, acc.2 ++ [some (acc.1 + v)])
      | none => (acc.1, acc.2 ++ [none]))
    (0, [])).2

/-- `series.shift(k)`: the first `k` cells become NaN, cell `i` holds
`x[i−k]` afterwards. -/
def shiftKO (k : Nat) (xs : List (Option ℚ)) : List (Option ℚ) :=
  (List.range xs.length).map fun i =>
    if i < k then none else xs.getD (i - k) none

/-- `series.tail(w).mean()` (pandas `skipna` mean of the last at most `w`
cells): NaN only when no observation exists. -/
def tailMeanO (w : Nat) (xs : List (Option ℚ)) : Option ℚ :=
  let vals := (xs.drop (xs.length - w)).filterMap id
  if vals.length = 0 then none else some (vals.sum / vals.length)

/-- `series.rolling(window=w).apply(f)`: `f` sees the raw window once it
holds `w` observations. -/
def rollingApplyO (f : List ℚ → ℚ) (w : Nat) (xs : List (Option ℚ)) : List (Option ℚ) :=
  (List.range xs.length).map fun i =>
    if i + 1 < w then none
    else
      let win := windowAt w xs i
      if win.all Option.isSome then some (f (win.map (·.getD 0))) else none

/-- Rolling 20-bar weighted moving average with weights `1..w`
(`np.average(x, weights=np.arange(1, len(x) + 1))`). -/
def rollingWMAO (w : Nat) (xs : List (Option ℚ)) : List (Option ℚ) :=
  rollingApplyO (fun ys =>
      ((List.range w).map fun (k : ℕ) => ((k : ℚ) + 1) * ys.getD k 0).sum /
        ((List.range w).map fun (k : ℕ) => ((k : ℚ) + 1)).sum)
    w xs

/-- Accumulator for `series.ewm(span=…).mean()` with the pandas defaults
`adjust=True`, `ignore_na=False`: `num` and `den` carry the decayed
weighted sum and weight total.  A NaN cell contributes no weight but the
existing weights still decay, and its output is the mean so far (NaN while
no observation has been seen, i.e. while the weight total is zero). -/
def ewmMeanOAux (g : ℚ) : List (Option ℚ) → ℚ → ℚ → List (Option ℚ)
  | [], _, _ => []
  | x :: rest, num, den =>
    match x with
    | some v =>
      let n := g * num + v
      let d := g * den + 1
      some (n / d) :: ewmMeanOAux g rest n d
    | none =>
      let n := g * num
      let d := g * den
      (if d = 0 then none else some (n / d)) :: ewmMeanOAux g rest n d

/-- `series.ewm(span=s).mean()`; the decay factor is `1 − α` with
`α = 2/(s+1)`. -/
def ewmMeanO (span : ℚ) (xs : List (Option ℚ)) : List (Option ℚ) :=
  ewmMeanOAux (1 - 2 / (span + 1)) xs 0 0

/-- The RSI transform `100 − 100/(1 + gain/loss)` with IEEE zero-denominator
semantics made explicit: `gain/0 = ±inf` gives exactly `100` (for a
positive gain via `100 − 100/inf`, and the `gain < 0` corner, unreachable
for rolling means of non-negative series, also evaluates to `100` in IEEE
arithmetic), while `0/0 = NaN` stays missing. -/
def rsiFromGainLoss (gain loss : ℚ) : Option ℚ :=
  if loss = 0 then (if gain = 0 then none else some 100)
  else some (100 - 100 / (1 + gain / loss))

/-- The MFI transform `100 − 100/(1 + pos/neg)`, identical zero-denominator
analysis as `rsiFromGainLoss`. -/
def mfiFromFlows (pos neg : ℚ) : Option ℚ :=
  if neg = 0 then (if pos = 0 then none else some 100)
  else some (100 - 100 / (1 + pos / neg))

/-- `series.rolling(window=w).std()` (sample standard deviation,
`ddof = 1`), parametric in the floating-point square root. -/
def rollingStdO (sqrtQ : ℚ → ℚ) (w : Nat) (xs : List (Option ℚ)) : List (Option ℚ) :=
  rollingApplyO (fun ys =>
      let m := ys.sum / w
      sqrtQ ((ys.map fun y => (y - m) ^ 2).sum / ((w : ℚ) - 1)))
    w xs

/-! ## DataFrame model -/

/-- A pandas `DataFrame`: a row count and named columns in insertion
order. -/
structure DataFrame where
  nrows : Nat
  cols : List (String × List (Option ℚ))
deriving Repr, DecidableEq

/-- `df[k] = v`: overwrite the column in place if the name exists,
otherwise append it at the end (pandas column assignment). -/
def updateAssoc (l : List (String × List (Option ℚ))) (k : String)
    (v : List (Option ℚ)) : List (String × List (Option ℚ)) :=
  match l with
  | [] => [(k, v)]
  | (k', v') :: rest => if k' = k then (k, v) :: rest else (k', v') :: updateAssoc rest k v

/-- Column assignment on the frame. -/
def setCol (df : DataFrame) (k : String) (v : List (Option ℚ)) : DataFrame :=
  ⟨df.nrows, updateAssoc df.cols k v⟩

/-- `df[k]` (callers below only read columns they know exist). -/
def getCol (df : DataFrame) (k : String) : List (Option ℚ) :=
  (df.cols.lookup k).getD []

/-- `k in df.columns`. -/
def hasCol (df : DataFrame) (k : String) : Bool :=
  (df.cols.lookup k).isSome

/-- `df.empty`: true when either axis has length zero. -/
def DataFrame.isEmpty (df : DataFrame) : Bool :=
  df.nrows == 0 || df.cols.isEmpty

/-! ## Configuration (`config.py`) -/

namespace Config

def RSI_PERIOD : Nat := 14

def MACD_FAST : ℚ := 12

def MACD_SLOW : ℚ := 26

def MACD_SIGNAL : ℚ := 9

def BOLLINGER_PERIOD : Nat := 20

def BOLLINGER_STD : ℚ := 2

end Config

/-- NaN-propagating absolute value (`np.abs`). -/
def oAbs (a : Option ℚ) : Option ℚ := a.map (fun x => |x|)

/-- NaN-propagating sign (`np.sign`). -/
def oSign (a : Option ℚ) : Option ℚ :=
  a.map (fun x => if x < 0 then -1 else if x = 0 then 0 else 1)

/-- `np.maximum`: elementwise maximum, NaN-propagating. -/
def oMax (a b : Option ℚ) : Option ℚ :=
  match a, b with
  | some x, some y => some (max x y)
  | _, _ => none

/-! ## Indicator engine (`TechnicalAnalyzer._calculate_*`)

Each sub-calculator wraps its body in `try/except` and returns the frame;
the manual (no-`talib`) branches below never raise, so the handlers are
inert and the embeddings are total functions on the frame. -/

/-- `_calculate_moving_averages`: simple, exponential and length-weighted
moving averages of `Close`. -/
def _calculate_moving_averages (df : DataFrame) : DataFrame :=
  let c := getCol df "Close"
  let df := setCol df "SMA_5" (rollingMeanO 5 c)
  let df := setCol df "SMA_10" (rollingMeanO 10 c)
  let df := setCol df "SMA_20" (rollingMeanO 20 c)
  let df := setCol df "SMA_50" (rollingMeanO 50 c)
  let df := setCol df "SMA_100" (rollingMeanO 100 c)
  let df := setCol df "SMA_200" (rollingMeanO 200 c)
  let df := setCol df "EMA_12" (ewmMeanO 12 c)
  let df := setCol df "EMA_26" (ewmMeanO 26 c)
  let df := setCol df "EMA_50" (ewmMeanO 50 c)
  let df := setCol df "EMA_200" (ewmMeanO 200 c)
  setCol df "WMA_20" (rollingWMAO 20 c)

/-- One cell of `delta.where(delta > 0, 0)`: the positive delta, else `0`
(a NaN delta compares false and is replaced by `0`). -/
def gainCell (d : Option ℚ) : Option ℚ :=
  match d with
  | some v => if 0 < v then some v else some 0
  | none => some 0

/-- One cell of `-delta.where(delta < 0, 0)`: minus the negative delta,
else `0`. -/
def lossCell (d : Option ℚ) : Option ℚ :=
  match d with
  | some v => if v < 0 then some (-v) else some 0
  | none => some 0

/-- The RSI column of `_calculate_rsi` (manual branch): 14-bar rolling
means of gains and losses combined by `rsiFromGainLoss`. -/
def rsiColO (c : List (Option ℚ)) : List (Option ℚ) :=
  let delta := diffO c
  let gain := rollingMeanO Config.RSI_PERIOD (delta.map gainCell)
  let loss := rollingMeanO Config.RSI_PERIOD (delta.map lossCell)
  List.zipWith (fun og ol =>
      match og, ol with
      | some g, some l => rsiFromGainLoss g l
      | _, _ => none)
    gain loss

/-- `_calculate_rsi`: the RSI column plus the constant 70/30 bands. -/
def _calculate_rsi (df : DataFrame) : DataFrame :=
  let df := setCol df "RSI" (rsiColO (getCol df "Close"))
  let df := setCol df "RSI_Overbought" (List.replicate df.nrows (some 70))
  setCol df "RSI_Oversold" (List.replicate df.nrows (some 30))

/-- The MACD line, signal line and histogram of `_calculate_macd`
(manual branch). -/
def macdColsO (c : List (Option ℚ)) : List (Option ℚ) × List (Option ℚ) × List (Option ℚ) :=
  let ema_fast := ewmMeanO Config.MACD_FAST c
  let ema_slow := ewmMeanO Config.MACD_SLOW c
  let macd := List.zipWith oSub ema_fast ema_slow
  let macd_signal := ewmMeanO Config.MACD_SIGNAL macd
  let macd_hist := List.zipWith oSub macd macd_signal
  (macd, macd_signal, macd_hist)

/-- `_calculate_macd`. -/
def _calculate_macd (df : DataFrame) : DataFrame :=
  let cols := macdColsO (getCol df "Close")
  let df := setCol df "MACD" cols.1
  let df := setCol df "MACD_Signal" cols.2.1
  setCol df "MACD_Histogram" cols.2.2

/-- The Bollinger position transform of one bar,
`(close − lower) / (upper − lower)` (line 152 of
`technical_analysis.py`); no clamping is applied. -/
def bbPosition (close lower upper : ℚ) : ℚ :=
  (close - lower) / (upper - lower)

/-- `bbPosition` lifted to NaN-aware cells; a zero band width (IEEE
`±inf`/`NaN`) is missing. -/
def bbPositionCell (close lower upper : Option ℚ) : Option ℚ :=
  match close, lower, upper with
  | some c, some lo, some up => if up - lo = 0 then none else some (bbPosition c lo up)
  | _, _, _ => none

/-- `_calculate_bollinger_bands` (manual branch): middle band, ±2σ bands,
width and position. -/
def _calculate_bollinger_bands (sqrtQ : ℚ → ℚ) (df : DataFrame) : DataFrame :=
  let c := getCol df "Close"
  let middle := rollingMeanO Config.BOLLINGER_PERIOD c
  let std := rollingStdO sqrtQ Config.BOLLINGER_PERIOD c
  let upper := List.zipWith oAdd middle (std.map (Option.map (· * Config.BOLLINGER_STD)))
  let lower := List.zipWith oSub middle (std.map (Option.map (· * Config.BOLLINGER_STD)))
  let df := setCol df "BB_Upper" upper
  let df := setCol df "BB_Middle" middle
  let df := setCol df "BB_Lower" lower
  let df := setCol df "BB_Width" (List.zipWith oDiv (List.zipWith oSub upper lower) middle)
  setCol df "BB_Position"
    (List.zipWith (fun cl p => bbPositionCell cl p.1 p.2) c (lower.zip upper))

/-- `_calculate_stochastic` (manual branch). -/
def _calculate_stochastic (df : DataFrame) : DataFrame :=
  let low_min := rollingMinO 14 (getCol df "Low")
  let high_max := rollingMaxO 14 (getCol df "High")
  let c := getCol df "Close"
  let slowk := List.zipWith (fun cl p => oMul (some 100) (oDiv (oSub cl p.1) (oSub p.2 p.1)))
    c (low_min.zip high_max)
  let slowd := rollingMeanO 3 slowk
  let df := setCol df "Stoch_K" slowk
  setCol df "Stoch_D" slowd

/-- `_calculate_williams_r` (manual branch). -/
def _calculate_williams_r (df : DataFrame) : DataFrame :=
  let high_max := rollingMaxO 14 (getCol df "High")
  let low_min := rollingMinO 14 (getCol df "Low")
  let c := getCol df "Close"
  setCol df "Williams_R"
    (List.zipWith (fun cl p => oMul (some (-100)) (oDiv (oSub p.2 cl) (oSub p.2 p.1)))
      c (low_min.zip high_max))

/-- `_calculate_atr` (manual branch): 14-bar mean of the true range. -/
def _calculate_atr (df : DataFrame) : DataFrame :=
  let hi := getCol df "High"
  let lo := getCol df "Low"
  let prevClose := shiftKO 1 (getCol df "Close")
  let high_low := List.zipWith oSub hi lo
  let high_close := List.zipWith (fun a b => oAbs (oSub a b)) hi prevClose
  let low_close := List.zipWith (fun a b => oAbs (oSub a b)) lo prevClose
  let true_range := List.zipWith oMax high_low (List.zipWith oMax high_close low_close)
  setCol df "ATR" (rollingMeanO 14 true_range)

/-- Typical price column `(High + Low + Close) / 3`. -/
def typicalPriceO (hi lo cl : List (Option ℚ)) : List (Option ℚ) :=
  List.zipWith (fun h p => (oAdd h (oAdd p.1 p.2)).map (· / 3)) hi (lo.zip cl)

/-- One cell of `money_flow.where(cond, 0)`: the raw money flow is kept
(even if NaN) where `cond` holds, else `0`. -/
def flowCell (cond : Bool) (mf : Option ℚ) : Option ℚ :=
  if cond then mf else some 0

/-- The positive-flow input series of the MFI: money flow where the
typical price rose bar-over-bar, else `0` (the first bar's NaN
comparison is false, hence `0`). -/
def posFlowSeries (tp mf : List (Option ℚ)) : List (Option ℚ) :=
  (List.range tp.length).map fun i =>
    flowCell (oGt (tp.getD i none) (if i = 0 then none else tp.getD (i - 1) none))
      (mf.getD i none)

/-- The negative-flow input series of the MFI (typical price fell). -/
def negFlowSeries (tp mf : List (Option ℚ)) : List (Option ℚ) :=
  (List.range tp.length).map fun i =>
    flowCell (oLt (tp.getD i none) (if i = 0 then none else tp.getD (i - 1) none))
      (mf.getD i none)

/-- 14-bar rolling sum of the positive flow. -/
def posFlowCol (tp mf : List (Option ℚ)) : List (Option ℚ) :=
  rollingSumO 14 (posFlowSeries tp mf)

/-- 14-bar rolling sum of the negative flow. -/
def negFlowCol (tp mf : List (Option ℚ)) : List (Option ℚ) :=
  rollingSumO 14 (negFlowSeries tp mf)

/-- The MFI column: `100 − 100/(1 + positive_flow/negative_flow)` via
`mfiFromFlows`. -/
def mfiCol (tp mf : List (Option ℚ)) : List (Option ℚ) :=
  List.zipWith (fun pf nf =>
      match pf, nf with
      | some p, some n => mfiFromFlows p n
      | _, _ => none)
    (posFlowCol tp mf) (negFlowCol tp mf)

/-- `_calculate_volume_indicators`: OBV, VWAP and MFI. -/
def _calculate_volume_indicators (df : DataFrame) : DataFrame :=
  let cl := getCol df "Close"
  let vol := getCol df "Volume"
  let obv := cumsumO ((List.zipWith (fun d v => oMul (oSign d) v) (diffO cl) vol).map
    (fun x => some (x.getD 0)))
  let vwap := List.zipWith oDiv (cumsumO (List.zipWith oMul cl vol)) (cumsumO vol)
  let tp := typicalPriceO (getCol df "High") (getCol df "Low") cl
  let mf := List.zipWith oMul tp vol
  let df := setCol df "OBV" obv
  let df := setCol df "VWAP" vwap
  setCol df "MFI" (mfiCol tp mf)

/-- `_calculate_momentum_indicators`: ROC, Momentum and CCI. -/
def _calculate_momentum_indicators (df : DataFrame) : DataFrame :=
  let cl := getCol df "Close"
  let cl10 := shiftKO 10 cl
  let roc := List.zipWith (fun a b => oMul (oDiv (oSub a b) b) (some 100)) cl cl10
  let momentum := List.zipWith oSub cl cl10
  let tp := typicalPriceO (getCol df "High") (getCol df "Low") cl
  let sma_tp := rollingMeanO 20 tp
  let mean_deviation := rollingMeanO 20 (List.zipWith (fun a b => oAbs (oSub a b)) tp sma_tp)
  let cci := List.zipWith (fun d m => oDiv d (oMul (some (3 / 200)) m))
    (List.zipWith oSub tp sma_tp) mean_deviation
  let df := setCol df "ROC" roc
  let df := setCol df "Momentum" momentum
  setCol df "CCI" cci

/-- `_calculate_trend_indicators` (manual branch): the ADX fallback is a
14-bar rolling standard deviation of `Close`; SAR is a naive 5-bar
trailing low; the directional proxies average the positive/negative daily
deltas over 14 bars (`len(x)` is the full window size 14, and the
`len(x) > 0` guard is kept). -/
def _calculate_trend_indicators (sqrtQ : ℚ → ℚ) (df : DataFrame) : DataFrame :=
  let cl := getCol df "Close"
  let deltas := diffO cl
  let df := setCol df "ADX" (rollingStdO sqrtQ 14 cl)
  let df := setCol df "SAR" (rollingMinO 5 (getCol df "Low"))
  let df := setCol df "DI_Plus" (rollingApplyO
    (fun ys => if ys.length = 0 then 0 else (ys.filter (fun y => decide (0 < y))).sum / ys.length)
    14 deltas)
  setCol df "DI_Minus" (rollingApplyO
    (fun ys => if ys.length = 0 then 0 else |(ys.filter (fun y => decide (y < 0))).sum| / ys.length)
    14 deltas)

/-- The required OHLCV column names checked by `calculate_all_indicators`. -/
def requiredCols : List String := ["Open", "High", "Low", "Close", "Volume"]

/-- `calculate_all_indicators`: empty input is returned as is; a frame
missing a required OHLCV column is logged and returned as is (no
exception type exists for this case); otherwise every indicator family is
appended in source order.  The surrounding `try/except` also returns the
frame, so the function is total. -/
def calculate_all_indicators (sqrtQ : ℚ → ℚ) (df : DataFrame) : DataFrame :=
  if df.isEmpty then df
  else if requiredCols.all (hasCol df) then
    _calculate_trend_indicators sqrtQ
      (_calculate_momentum_indicators
        (_calculate_volume_indicators
          (_calculate_atr
            (_calculate_williams_r
              (_calculate_stochastic
                (_calculate_bollinger_bands sqrtQ
                  (_calculate_macd
                    (_calculate_rsi
                      (_calculate_moving_averages df)))))))))
  else df

/-! ## Pattern detector (`TechnicalAnalyzer.detect_patterns`)

Frames analysed here carry no `'Date'` column (the fetcher keeps the date
in the index), so every event's `date` field is the positional index the
source falls back to.  The `'level_type'` string of a support/resistance
event duplicates the event title and is not repeated as a field. -/

/-- One detected pattern occurrence. -/
structure PatternEvent where
  pattern : String
  dateIdx : Nat
  ptype : String
  strength : ℚ
  attrs : List (String × ℚ)
deriving Repr, DecidableEq

/-- `data.iloc[a:b]['High'].max()`: maximum over the non-NaN cells of the
slice, NaN when none exists. -/
def sliceMax (xs : List (Option ℚ)) (a b : Nat) : Option ℚ :=
  (((xs.drop a).take (b - a)).filterMap id).max?

/-- `data.iloc[a:b]['High'].idxmax()` as an absolute positional index;
`none` embeds the `ValueError` pandas raises on an all-NaN slice. -/
def sliceIdxMax (xs : List (Option ℚ)) (a b : Nat) : Option Nat :=
  match sliceMax xs a b with
  | none => none
  | some m => (List.range' a (b - a)).find? (fun j => xs.getD j none == some m)

/-- `_detect_candlestick_patterns`: every catalog entry calls a `talib`
function; with the library unavailable each iteration raises `NameError`,
which the per-pattern handler swallows, so the result is always empty. -/
def _detect_candlestick_patterns (_df : DataFrame) : List PatternEvent := []

/-- `_detect_head_and_shoulders`: slide a pivot `i` over
`range(10, len − 10)`; shoulders and head are the maxima of the three
adjacent 5-bar `High` slices; fire when the head tops both shoulders and
the shoulders differ by less than 10% of the left one.  An all-NaN slice
makes `idxmax` raise, aborting the loop with the events found so far
(the outer handler returns them). -/
def _detect_head_and_shoulders (df : DataFrame) : List PatternEvent :=
  if df.nrows < 20 then []
  else
    let hi := getCol df "High"
    (((List.range' 10 (df.nrows - 20)).foldl (fun (acc : List PatternEvent × Bool) i =>
        if acc.2 then acc
        else
          match sliceIdxMax hi (i - 5) i, sliceIdxMax hi i (i + 5),
              sliceIdxMax hi (i + 5) (i + 10) with
          | some _, some head_idx, some _ =>
            let ls := sliceMax hi (i - 5) i
            let h := sliceMax hi i (i + 5)
            let rs := sliceMax hi (i + 5) (i + 10)
            if oGt h ls && oGt h rs && oLt (oDiv (oAbs (oSub ls rs)) ls) (some (1 / 10)) then
              (acc.1 ++ [⟨"Head and Shoulders", head_idx, "bearish", 8 / 10,
                [("left_shoulder", ls.getD 0), ("head", h.getD 0),
                 ("right_shoulder", rs.getD 0)]⟩], false)
            else acc
          | _, _, _ => (acc.1, true))
      ([], false))).1

/-- Least-squares slope of `np.polyfit(range(n), ys, 1)` in closed form. -/
def polyfitSlope (ys : List ℚ) : ℚ :=
  let n : ℚ := ys.length
  let xs : List ℚ := (List.range ys.length).map (fun (k : ℕ) => (k : ℚ))
  let sx := xs.sum
  let sy := ys.sum
  let sxy := (List.zipWith (· * ·) xs ys).sum
  let sxx := (xs.map (· ^ 2)).sum
  (n * sxy - sx * sy) / (n * sxx - sx ^ 2)

/-- `_detect_triangles`: fit trendlines to the trailing 20 highs and lows
and classify by the slope signs against a ±0.1 threshold (the source's
branch cascade is kept verbatim, duplicated arms included).  A NaN in the
trailing window makes `np.polyfit` fail, which the handler turns into an
empty result. -/
def _detect_triangles (df : DataFrame) : List PatternEvent :=
  if df.nrows < 20 then []
  else
    let highs := (getCol df "High").drop (df.nrows - 20)
    let lows := (getCol df "Low").drop (df.nrows - 20)
    if highs.all Option.isSome && lows.all Option.isSome then
      let hs := polyfitSlope (highs.map (·.getD 0))
      let ls := polyfitSlope (lows.map (·.getD 0))
      let cls : Option String :=
        if |hs| < 1 / 10 ∧ |ls| < 1 / 10 then some "Rectangle"
        else if hs < -(1 / 10) ∧ ls > 1 / 10 then some "Ascending Triangle"
        else if hs < -(1 / 10) ∧ ls < -(1 / 10) then some "Descending Triangle"
        else if hs < -(1 / 10) ∧ |ls| < 1 / 10 then some "Descending Triangle"
        else if |hs| < 1 / 10 ∧ ls > 1 / 10 then some "Ascending Triangle"
        else none
      match cls with
      | some name =>
        [⟨name, df.nrows - 1, "neutral", 6 / 10, [("high_slope", hs), ("low_slope", ls)]⟩]
      | none => []
    else []

/-- Strict 3-point local maxima `(i, highs[i])` of the trailing window,
interior positions only; NaN cells never compare true. -/
def localPeaks (xs : List (Option ℚ)) : List (Nat × ℚ) :=
  ((List.range' 1 (xs.length - 2)).filterMap fun i =>
    match xs.getD i none with
    | some v =>
      if oGt (some v) (xs.getD (i - 1) none) && oGt (some v) (xs.getD (i + 1) none) then
        some (i, v)
      else none
    | none => none)

/-- Strict 3-point local minima of the trailing window. -/
def localTroughs (xs : List (Option ℚ)) : List (Nat × ℚ) :=
  ((List.range' 1 (xs.length - 2)).filterMap fun i =>
    match xs.getD i none with
    | some v =>
      if oLt (some v) (xs.getD (i - 1) none) && oLt (some v) (xs.getD (i + 1) none) then
        some (i, v)
      else none
    | none => none)

/-- `_detect_double_patterns`: the last two peaks (troughs) of the trailing
20 bars within 5% of each other give a Double Top (Double Bottom).  The
5% test divides by the older peak; a zero value there is the IEEE
infinite/NaN quotient, which compares false. -/
def _detect_double_patterns (df : DataFrame) : List PatternEvent :=
  if df.nrows < 20 then []
  else
    let highs := (getCol df "High").drop (df.nrows - 20)
    let lows := (getCol df "Low").drop (df.nrows - 20)
    let peaks := localPeaks highs
    let troughs := localTroughs lows
    let tops :=
      if peaks.length ≥ 2 then
        let p1 := peaks.getD (peaks.length - 2) (0, 0)
        let p2 := peaks.getD (peaks.length - 1) (0, 0)
        if oLt (oDiv (some |p1.2 - p2.2|) (some p1.2)) (some (1 / 20)) then
          [⟨"Double Top", df.nrows - 1, "bearish", 7 / 10,
            [("peak1", p1.2), ("peak2", p2.2)]⟩]
        else []
      else []
    let bottoms :=
      if troughs.length ≥ 2 then
        let t1 := troughs.getD (troughs.length - 2) (0, 0)
        let t2 := troughs.getD (troughs.length - 1) (0, 0)
        if oLt (oDiv (some |t1.2 - t2.2|) (some t1.2)) (some (1 / 20)) then
          [⟨"Double Bottom", df.nrows - 1, "bullish", 7 / 10,
            [("trough1", t1.2), ("trough2", t2.2)]⟩]
        else []
      else []
    tops ++ bottoms

/-- `_detect_chart_patterns`: the three geometric detectors in source
order. -/
def _detect_chart_patterns (df : DataFrame) : List PatternEvent :=
  _detect_head_and_shoulders df ++ _detect_triangles df ++ _detect_double_patterns df

/-- Indices within `eps` of point `i` (1-D euclidean metric, closed
ball), the region query of `sklearn.cluster.DBSCAN`. -/
def dbscanNeighbors (pts : List ℚ) (eps : ℚ) (i : Nat) : List Nat :=
  (List.range pts.length).filter fun j => decide (|pts.getD i 0 - pts.getD j 0| ≤ eps)

/-- Cluster expansion of DBSCAN: pop a point, label it if unlabeled, and
when it is a core point push its unlabeled neighbours.  `fuel` bounds the
recursion; it is called with more fuel than any reachable queue can
consume, so exhaustion never truncates a real run. -/
def dbscanExpand (nbrs : Nat → List Nat) (isCore : Nat → Bool) (lbl : Int) :
    Nat → List Int → List Nat → List Int
  | 0, labels, _ => labels
  | _ + 1, labels, [] => labels
  | fuel + 1, labels, i :: rest =>
    if labels.getD i 0 = -1 then
      let labels' := labels.set i lbl
      if isCore i then
        dbscanExpand nbrs isCore lbl fuel labels'
          (((nbrs i).filter fun v => labels'.getD v 0 = -1) ++ rest)
      else dbscanExpand nbrs isCore lbl fuel labels' rest
    else dbscanExpand nbrs isCore lbl fuel labels rest

/-- `DBSCAN(eps, min_samples).fit(pts).labels_`: scan the points in order,
growing a new cluster from every unlabeled core point; noise keeps label
`−1`. -/
def dbscanLabels (pts : List ℚ) (eps : ℚ) (minSamples : Nat) : List Int :=
  let n := pts.length
  let nbrs := dbscanNeighbors pts eps
  let isCore := fun i => decide (minSamples ≤ (nbrs i).length)
  ((List.range n).foldl (fun (acc : List Int × Int) i =>
      if acc.1.getD i 0 != -1 || !isCore i then acc
      else (dbscanExpand nbrs isCore acc.2 (n * n + n + 1) acc.1 [i], acc.2 + 1))
    (List.replicate n (-1), 0)).1

/-- `_detect_support_resistance`: cluster the trailing 50 highs and lows
with `DBSCAN(eps=0.02, min_samples=3)` and emit one level per non-noise
cluster, typed by the side of the latest close its centre lies on
(a NaN close compares false, giving `support`).  A NaN level makes
`fit` raise, which the handler turns into an empty result.  Cluster
labels are consumed in `np.unique` order, which is ascending label
order. -/
def _detect_support_resistance (df : DataFrame) : List PatternEvent :=
  if df.nrows < 20 then []
  else
    let highs := (getCol df "High").drop (df.nrows - 50)
    let lows := (getCol df "Low").drop (df.nrows - 50)
    let all_levels := highs ++ lows
    if all_levels.all Option.isSome then
      let pts := all_levels.map (·.getD 0)
      let labels := dbscanLabels pts (1 / 50) 3
      let nlabels := (labels.filter (· ≥ 0)).foldr (fun l m => max (l + 1) m) 0
      let current_price := (getCol df "Close").getD (df.nrows - 1) none
      ((List.range nlabels.toNat).map fun l =>
        let cluster := (List.zip pts labels).filterMap
          (fun pl => if pl.2 = (l : Int) then some pl.1 else none)
        let center := cluster.sum / cluster.length
        let isRes := oGt (some center) current_price
        let title := if isRes then "Resistance Level" else "Support Level"
        (⟨title, df.nrows - 1, "neutral", 8 / 10,
          [("level", center), ("cluster_size", (cluster.length : ℚ))]⟩ : PatternEvent))
    else []

/-- `detect_patterns`: empty frame short-circuits to an empty collection;
otherwise the three categories are assembled in source order. -/
def detect_patterns (df : DataFrame) : List (String × List PatternEvent) :=
  if df.isEmpty then []
  else
    [("candlestick", _detect_candlestick_patterns df),
     ("chart", _detect_chart_patterns df),
     ("support_resistance", _detect_support_resistance df)]

/-! ## Signal generator (`TechnicalAnalyzer._generate_*`)

A signal dictionary is a record; the raw metric keys (`'value'`,
`'macd'`, `'position'`, `'sma20'`, `'volume_ratio'`, …) that no caller
reads back are elided, as is the `f`-string numeric interpolation inside
some reasons.  The `'trend'` key exists only in the moving-average
signal and the `'score'` key only in the combined signal; both are
`Option` fields defaulting to `none`. -/

/-- A signal direction as the source spells it. -/
inductive Sig
  | buy
  | sell
  | hold
  | neutral
deriving Repr, DecidableEq

/-- One signal dictionary. -/
structure SignalR where
  signal : Sig
  strength : ℚ
  reason : String
  trend : Option String := none
  score : Option ℚ := none
deriving Repr, DecidableEq

/-- `_generate_rsi_signals`: thresholds at 70/30 with overshoot-scaled
strength.  `none` would mean an uncaught exception (empty column). -/
def _generate_rsi_signals (rsi : List (Option ℚ)) : Option SignalR := do
  let latest ← iloc1 rsi
  match latest with
  | none => pure ⟨.neutral, 0, "Insufficient data", none, none⟩
  | some r =>
    if r > 70 then pure ⟨.sell, min ((r - 70) / 30) 1, "RSI overbought", none, none⟩
    else if r < 30 then pure ⟨.buy, min ((30 - r) / 30) 1, "RSI oversold", none, none⟩
    else pure ⟨.hold, 1 / 2, "RSI neutral", none, none⟩

/-- `_generate_macd_signals`: crossover of the MACD line against its
signal line between the last two bars.  The `.iloc[-2]` reads happen only
inside a satisfied first conjunct (Python's short-circuit `and`), and
`none` embeds the `IndexError` they raise on a one-bar column.  In the
buy/sell branches `latest_hist` is never missing when the line and signal
are present (the histogram is their difference), so `getD` is exact. -/
def _generate_macd_signals (macd sigline hist : List (Option ℚ)) : Option SignalR := do
  let lm ← iloc1 macd
  let ls ← iloc1 sigline
  let lh ← iloc1 hist
  match lm, ls with
  | some m, some s =>
    let cond1 ←
      if m > s then do
        let pm ← iloc2 macd
        let ps ← iloc2 sigline
        pure (oLe pm ps)
      else pure false
    if cond1 then
      pure ⟨.buy, min (|lh.getD 0| / 2) 1, "MACD bullish crossover", none, none⟩
    else do
      let cond2 ←
        if m < s then do
          let pm ← iloc2 macd
          let ps ← iloc2 sigline
          pure (oGe pm ps)
        else pure false
      if cond2 then
        pure ⟨.sell, min (|lh.getD 0| / 2) 1, "MACD bearish crossover", none, none⟩
      else pure ⟨.hold, 1 / 2, "MACD no crossover", none, none⟩
  | _, _ => pure ⟨.neutral, 0, "Insufficient data", none, none⟩

/-- `_generate_bollinger_signals`: band-touch rules with penetration-scaled
strength.  The strength quotients divide by a band value; for a zero band
value IEEE arithmetic would produce an infinite/NaN strength where `ℚ`
division yields `0` — unreachable for price data, whose bands are
positive. -/
def _generate_bollinger_signals (close upper lower position : List (Option ℚ)) :
    Option SignalR := do
  let lc ← iloc1 close
  let lu ← iloc1 upper
  let ll ← iloc1 lower
  let _lp ← iloc1 position
  match lc, lu, ll with
  | some c, some u, some l =>
    if c ≤ l then
      pure ⟨.buy, min ((l - c) / l * 10) 1, "Price at or below lower Bollinger Band", none, none⟩
    else if c ≥ u then
      pure ⟨.sell, min ((c - u) / u * 10) 1, "Price at or above upper Bollinger Band", none, none⟩
    else pure ⟨.hold, 1 / 2, "Price within Bollinger Bands", none, none⟩
  | _, _, _ => pure ⟨.neutral, 0, "Insufficient data", none, none⟩

/-- `_generate_ma_signals`: Golden/Death Cross of the 20- and 50-bar SMAs
between the last two bars at fixed strength 0.8, plus the close-versus-
SMA-200 trend tag.  A NaN comparison is false, so a missing SMA-200 value
always tags `bearish`; the `.iloc[-2]` reads are reached only when the
latest SMA-20 is present, which already needs 20 bars. -/
def _generate_ma_signals (close sma20 sma50 sma200 : List (Option ℚ)) :
    Option SignalR := do
  let lc ← iloc1 close
  let l20 ← iloc1 sma20
  let l50 ← iloc1 sma50
  let l200 ← iloc1 sma200
  match l20, l50 with
  | some a, some b =>
    let cond1 ←
      if a > b then do
        let p20 ← iloc2 sma20
        let p50 ← iloc2 sma50
        pure (oLe p20 p50)
      else pure false
    let base ←
      if cond1 then
        pure (⟨.buy, 8 / 10, "Golden Cross (20 SMA crosses above 50 SMA)", none, none⟩ : SignalR)
      else do
        let cond2 ←
          if a < b then do
            let p20 ← iloc2 sma20
            let p50 ← iloc2 sma50
            pure (oGe p20 p50)
          else pure false
        if cond2 then
          pure (⟨.sell, 8 / 10, "Death Cross (20 SMA crosses below 50 SMA)", none, none⟩ : SignalR)
        else pure (⟨.hold, 1 / 2, "No MA crossover", none, none⟩ : SignalR)
    let trend := if oGt lc l200 then "bullish" else "bearish"
    pure { base with trend := some trend }
  | _, _ => pure ⟨.neutral, 0, "Insufficient data", none, none⟩

/-- `_generate_volume_signals`: a more-than-2× spike of the latest volume
over its trailing 20-bar average, signed by the bar-over-bar price move
(a NaN comparison is false and falls to `sell`).  The ratio is missing
when the average is NaN; a zero average with a nonzero latest volume
would be an IEEE infinity, unreachable for non-negative volumes because
the average window contains the latest bar. -/
def _generate_volume_signals (volume close obv : List (Option ℚ)) : Option SignalR := do
  let lv ← iloc1 volume
  let lc ← iloc1 close
  let lo ← iloc1 obv
  match lv, lo with
  | some v, some _ =>
    let ratio := oDiv (some v) (tailMeanO 20 volume)
    if oGt ratio (some 2) then do
      let prev ← iloc2 close
      if oGt lc prev then
        pure ⟨.buy, min (ratio.getD 0 / 5) 1, "High volume price increase", none, none⟩
      else
        pure ⟨.sell, min (ratio.getD 0 / 5) 1, "High volume price decrease", none, none⟩
    else pure ⟨.hold, 1 / 2, "Normal volume", none, none⟩
  | _, _ => pure ⟨.neutral, 0, "Insufficient data", none, none⟩

/-- The fusion weights of `_generate_combined_signal`. -/
def signal_weights : List (String × ℚ) :=
  [("RSI", 1 / 5), ("MACD", 1 / 4), ("Bollinger_Bands", 1 / 5),
   ("Moving_Averages", 1 / 4), ("Volume", 1 / 10)]

/-- Numeric score of one signal: `+strength` for buy, `−strength` for
sell, `0` otherwise. -/
def scoreOf (s : SignalR) : ℚ :=
  match s.signal with
  | .buy => s.strength
  | .sell => -s.strength
  | _ => 0

/-- One iteration of the accumulation loop of
`_generate_combined_signal`: skip the `Combined` entry and any name
without a weight, otherwise add the weight and the weighted score. -/
def combineStep (acc : ℚ × ℚ) (e : String × SignalR) : ℚ × ℚ :=
  if e.1 = "Combined" then acc
  else
    match signal_weights.lookup e.1 with
    | some w => (acc.1 + w, acc.2 + scoreOf e.2 * w)
    | none => acc

/-- The final thresholding step of `_generate_combined_signal` on the
normalized score. -/
def combinedVerdict (ns : ℚ) : SignalR :=
  if ns > 3 / 10 then
    ⟨.buy, min ns 1, "Multiple indicators suggest bullish momentum", none, some ns⟩
  else if ns < -(3 / 10) then
    ⟨.sell, min |ns| 1, "Multiple indicators suggest bearish momentum", none, some ns⟩
  else ⟨.hold, 1 / 2, "Mixed signals, maintaining current position", none, some ns⟩

/-- `_generate_combined_signal`: weighted average of the per-family
scores over the weights actually present, thresholded at ±0.3. -/
def _generate_combined_signal (individual_signals : List (String × SignalR)) : SignalR :=
  if individual_signals.isEmpty then ⟨.neutral, 0, "No signals available", none, none⟩
  else
    let acc := individual_signals.foldl combineStep (0, 0)
    if acc.1 = 0 then ⟨.neutral, 0, "No weighted signals available", none, none⟩
    else combinedVerdict (acc.2 / acc.1)

/-- The gated generator steps of `generate_signals`, in source order:
each runs only when its guarding columns exist, and reads of other
columns inside a generator raise (`none`) when those are absent, exactly
like the source's unguarded `data['…']` accesses. -/
def signalSteps (df : DataFrame) : List (Bool × String × Option SignalR) :=
  [(hasCol df "RSI", "RSI", _generate_rsi_signals (getCol df "RSI")),
   (hasCol df "MACD" && hasCol df "MACD_Signal", "MACD",
     _generate_macd_signals (getCol df "MACD") (getCol df "MACD_Signal")
       (getCol df "MACD_Histogram")),
   (hasCol df "BB_Upper" && hasCol df "BB_Lower", "Bollinger_Bands",
     _generate_bollinger_signals (getCol df "Close") (getCol df "BB_Upper")
       (getCol df "BB_Lower") (getCol df "BB_Position")),
   (hasCol df "SMA_20" && hasCol df "SMA_50", "Moving_Averages",
     _generate_ma_signals (getCol df "Close") (getCol df "SMA_20") (getCol df "SMA_50")
       (getCol df "SMA_200")),
   (hasCol df "OBV" && hasCol df "Volume", "Volume",
     _generate_volume_signals (getCol df "Volume") (getCol df "Close") (getCol df "OBV"))]

/-- Run the gated steps in order; the first exception aborts the block
(it propagates to the `try/except` of `generate_signals`, which returns
the entries collected so far and skips the combined signal). -/
def collectSignals : List (Bool × String × Option SignalR) → List (String × SignalR) × Bool
  | [] => ([], true)
  | (cond, name, res) :: rest =>
    if cond then
      match res with
      | none => ([], false)
      | some s =>
        let tail := collectSignals rest
        ((name, s) :: tail.1, tail.2)
    else collectSignals rest

/-- `generate_signals`: empty frame short-circuits to an empty set;
otherwise the family signals are produced in source order and, when no
exception interrupted them, the combined signal is appended. -/
def generate_signals (df : DataFrame) : List (String × SignalR) :=
  if df.isEmpty then []
  else
    let collected := collectSignals (signalSteps df)
    if collected.2 then
      collected.1 ++ [("Combined", _generate_combined_signal collected.1)]
    else collected.1

/-! ## Overall fusion (`main._combine_signals`) -/

/-- The fused overall recommendation dictionary. -/
structure FusedR where
  signal : Sig
  strength : ℚ
  reason : String
  weighted_score : ℚ
  technical_contribution : ℚ
  fundamental_contribution : ℚ
deriving Repr, DecidableEq

/-- `main._combine_signals`: 60/40 fusion of the combined technical
signal with the fundamental signal, thresholded at ±0.3.  The first
argument is `technical_signals.get('Combined', {})` — `none` for an
absent entry; the second models `fundamental_signals`, whose absence
(empty dictionary) makes both `.get` calls return their defaults
(`'hold'`, `0.5`).  The body cannot raise, so the `except` fallback is
dead code. -/
def _combine_signals (tech_combined fundamental_signals : Option SignalR) : FusedR :=
  let tech_signal := match tech_combined with | some t => t.signal | none => Sig.hold
  let tech_strength := match tech_combined with | some t => t.strength | none => 1 / 2
  let fund_signal := match fundamental_signals with | some f => f.signal | none => Sig.hold
  let fund_strength := match fundamental_signals with | some f => f.strength | none => 1 / 2
  let tech_score :=
    if tech_signal = Sig.buy then tech_strength
    else if tech_signal = Sig.sell then -tech_strength
    else 0
  let fund_score :=
    if fund_signal = Sig.buy then fund_strength
    else if fund_signal = Sig.sell then -fund_strength
    else 0
  let ws := tech_score * (3 / 5) + fund_score * (2 / 5)
  if ws > 3 / 10 then
    ⟨Sig.buy, min ws 1, "Strong technical and fundamental signals", ws,
      tech_score * (3 / 5), fund_score * (2 / 5)⟩
  else if ws < -(3 / 10) then
    ⟨Sig.sell, min |ws| 1, "Weak technical and fundamental signals", ws,
      tech_score * (3 / 5), fund_score * (2 / 5)⟩
  else
    ⟨Sig.hold, 1 / 2, "Mixed signals, maintaining position", ws,
      tech_score * (3 / 5), fund_score * (2 / 5)⟩

/-! ## Wiring helpers for raw close series

A fetched price frame has every cell present; the family generators
below are applied to exactly the derived columns `generate_signals`
hands them. -/

/-- A raw fetched OHLCV frame (no missing cells, source column order). -/
def mkPriceFrame (o h l c v : List ℚ) : DataFrame :=
  ⟨c.length,
   [("Open", o.map some), ("High", h.map some), ("Low", l.map some),
    ("Close", c.map some), ("Volume", v.map some)]⟩

/-- The `SMA_w` column over a fully-present close series, exactly as
`_calculate_moving_averages` computes it. -/
def smaCol (w : Nat) (closes : List ℚ) : List (Option ℚ) :=
  rollingMeanO w (closes.map some)

/-- The Moving-Averages family signal on the pipeline's own columns for a
raw close series (the inputs `_generate_ma_signals` receives from
`generate_signals`). -/
def maSignalOf (closes : List ℚ) : Option SignalR :=
  _generate_ma_signals (closes.map some) (smaCol 20 closes) (smaCol 50 closes)
    (smaCol 200 closes)

/-- The MACD family signal on the pipeline's own columns for a raw close
series. -/
def macdSignalOf (closes : List ℚ) : Option SignalR :=
  let cols := macdColsO (closes.map some)
  _generate_macd_signals cols.1 cols.2.1 cols.2.2

/-- The signal dictionary `generate_signals` builds, with each of the five
families optionally present, in source insertion order (the only shape
`_generate_combined_signal` is ever called on). -/
def mkFamilyDict (r m b ma v : Option SignalR) : List (String × SignalR) :=
  (match r with | some s => [("RSI", s)] | none => []) ++
  (match m with | some s => [("MACD", s)] | none => []) ++
  (match b with | some s => [("Bollinger_Bands", s)] | none => []) ++
  (match ma with | some s => [("Moving_Averages", s)] | none => []) ++
  (match v with | some s => [("Volume", s)] | none => [])

/-! ## Specification-side definitions

The next definitions are written from the specification text (§4.5 of the
spec and the wording of the fusion claims), *not* from the source; the
refinement theorems below compare them with the embedded code. -/

/-- Spec wording: "score = +strength for buy, −strength for sell, 0 for
hold", and an absent input contributes 0. -/
def specInputScore (s : Option SignalR) : ℚ :=
  match s with
  | some t =>
    if t.signal = Sig.buy then t.strength
    else if t.signal = Sig.sell then -t.strength
    else 0
  | none => 0

/-- Spec wording: the combined technical score is the weighted sum of the
per-family scores, weights RSI 0.20, MACD 0.25, Bollinger 0.20, Moving
Averages 0.25, Volume 0.10, renormalized by the sum of the weights of the
families actually present. -/
def specCombinedScore (r m b ma v : Option SignalR) : ℚ :=
  ((1 / 5) * specInputScore r + (1 / 4) * specInputScore m +
      (1 / 5) * specInputScore b + (1 / 4) * specInputScore ma +
      (1 / 10) * specInputScore v) /
    ((if r.isSome then (1 : ℚ) / 5 else 0) + (if m.isSome then 1 / 4 else 0) +
      (if b.isSome then 1 / 5 else 0) + (if ma.isSome then 1 / 4 else 0) +
      (if v.isSome then 1 / 10 else 0))

/-- Spec wording: the overall weighted score fuses the combined technical
signal (weight 0.6) with the fundamental signal (weight 0.4); an absent
fundamental signal is a neutral hold, contributing 0. -/
def specOverallScore (tech fund : Option SignalR) : ℚ :=
  specInputScore tech * (3 / 5) + specInputScore fund * (2 / 5)

/-- Spec wording: final call buy iff the weighted score exceeds 0.3, sell
iff below −0.3, hold otherwise. -/
def specOverallCall (tech fund : Option SignalR) : Sig :=
  if specOverallScore tech fund > 3 / 10 then Sig.buy
  else if specOverallScore tech fund < -(3 / 10) then Sig.sell
  else Sig.hold

/-! ## Indexing toolkit -/

theorem getElem?_rangeMap {α : Type} (f : ℕ → α) {n i : ℕ} (h : i < n) :
    ((List.range n).map f)[i]? = some (f i) := by
  simp [List.getElem?_map, List.getElem?_range, h]

theorem getD_rangeMap {α : Type} (f : ℕ → α) {n i : ℕ} (d : α) (h : i < n) :
    ((List.range n).map f).getD i d = f i := by
  simp [List.getD, getElem?_rangeMap f h]

theorem mapSome_getD (ys : List ℚ) (j : ℕ) (h : j < ys.length) :
    (ys.map some).getD j none = some (ys.getD j 0) := by
  simp [List.getD, List.getElem?_map, h]

theorem length_rollingMeanO (w : Nat) (xs : List (Option ℚ)) :
    (rollingMeanO w xs).length = xs.length := by
  simp [rollingMeanO]

theorem length_rollingSumO (w : Nat) (xs : List (Option ℚ)) :
    (rollingSumO w xs).length = xs.length := by
  simp [rollingSumO]

theorem length_diffO (xs : List (Option ℚ)) : (diffO xs).length = xs.length := by
  simp [diffO]

theorem windowAt_eq_of_pointwise (w : Nat) (xs : List (Option ℚ)) (g : ℕ → ℚ) (i : Nat)
    (hg : ∀ j, j ≤ i → xs.getD j none = some (g j)) (hw : w ≤ i + 1) :
    windowAt w xs i = (List.range w).map fun k => some (g (i + 1 - w + k)) := by
  unfold windowAt
  refine List.map_congr_left ?_
  intro k hk
  rw [List.mem_range] at hk
  exact hg _ (by omega)

theorem rollingMeanO_allSome (w : Nat) (xs : List (Option ℚ)) (g : ℕ → ℚ) (i : Nat)
    (hg : ∀ j, j ≤ i → xs.getD j none = some (g j)) (hi : i < xs.length) (hw : w ≤ i + 1) :
    (rollingMeanO w xs)[i]? =
      some (some (((List.range w).map fun k => g (i + 1 - w + k)).sum / w)) := by
  unfold rollingMeanO
  rw [getElem?_rangeMap _ hi, if_neg (by omega), windowAt_eq_of_pointwise w xs g i hg hw]
  simp [List.all_map, List.map_map, Function.comp_def]

theorem rollingSumO_allSome (w : Nat) (xs : List (Option ℚ)) (g : ℕ → ℚ) (i : Nat)
    (hg : ∀ j, j ≤ i → xs.getD j none = some (g j)) (hi : i < xs.length) (hw : w ≤ i + 1) :
    (rollingSumO w xs)[i]? =
      some (some ((List.range w).map fun k => g (i + 1 - w + k)).sum) := by
  unfold rollingSumO
  rw [getElem?_rangeMap _ hi, if_neg (by omega), windowAt_eq_of_pointwise w xs g i hg hw]
  simp [List.all_map, List.map_map, Function.comp_def]

theorem sum_rangeMap_nonneg (f : ℕ → ℚ) (w : Nat) (h0 : ∀ k, k < w → 0 ≤ f k) :
    0 ≤ ((List.range w).map f).sum := by
  apply List.sum_nonneg
  intro x hx
  rw [List.mem_map] at hx
  obtain ⟨j, hj, rfl⟩ := hx
  rw [List.mem_range] at hj
  exact h0 j hj

theorem sum_rangeMap_pos (f : ℕ → ℚ) (w : Nat) (h0 : ∀ k, k < w → 0 ≤ f k)
    (hp : ∃ k, k < w ∧ 0 < f k) : 0 < ((List.range w).map f).sum := by
  induction w with
  | zero => obtain ⟨k, hk, _⟩ := hp; omega
  | succ n ih =>
    rw [List.range_succ, List.map_append, List.sum_append]
    simp only [List.map_cons, List.map_nil, List.sum_cons, List.sum_nil]
    obtain ⟨k, hk, hkpos⟩ := hp
    by_cases hkn : k < n
    · have h1 : 0 < ((List.range n).map f).sum :=
        ih (fun j hj => h0 j (by omega)) ⟨k, hkn, hkpos⟩
      have h2 : 0 ≤ f n := h0 n (by omega)
      linarith
    · have hkeq : k = n := by omega
      have h1 : 0 ≤ ((List.range n).map f).sum :=
        sum_rangeMap_nonneg f n (fun j hj => h0 j (by omega))
      have h2 : 0 < f n := hkeq ▸ hkpos
      linarith

theorem sum_rangeMap_zero (f : ℕ → ℚ) (w : Nat) (h0 : ∀ k, k < w → f k = 0) :
    ((List.range w).map f).sum = 0 := by
  induction w with
  | zero => simp
  | succ n ih =>
    rw [List.range_succ, List.map_append, List.sum_append]
    simp only [List.map_cons, List.map_nil, List.sum_cons, List.sum_nil]
    rw [ih (fun j hj => h0 j (by omega)), h0 n (by omega)]
    ring

theorem getD_map_valid {α β : Type} (g : α → β) (l : List α) (j : ℕ) (h : j < l.length)
    (d : β) (d' : α) : (l.map g).getD j d = g (l.getD j d') := by
  simp [List.getD, List.getElem?_map, List.getElem?_eq_getElem h]

theorem diffO_mapSome_getD (ys : List ℚ) (j : ℕ) (hj : j < ys.length) :
    (diffO (ys.map some)).getD j none =
      if j = 0 then none else some (ys.getD j 0 - ys.getD (j - 1) 0) := by
  unfold diffO
  rw [List.length_map, getD_rangeMap _ none hj]
  by_cases h0 : j = 0
  · simp [h0]
  · simp only [h0, if_false]
    rw [mapSome_getD ys j hj, mapSome_getD ys (j - 1) (by omega)]
    rfl

/-- The value of the RSI gain series at a valid index. -/
theorem gains_getD (ys : List ℚ) (j : ℕ) (hj : j < ys.length) :
    ((diffO (ys.map some)).map gainCell).getD j none =
      some (if j = 0 then 0
        else if 0 < ys.getD j 0 - ys.getD (j - 1) 0 then ys.getD j 0 - ys.getD (j - 1) 0
        else 0) := by
  have hlen : j < (diffO (ys.map some)).length := by
    rw [length_diffO, List.length_map]; exact hj
  rw [getD_map_valid gainCell _ j hlen _ none, diffO_mapSome_getD ys j hj]
  by_cases h0 : j = 0
  · simp [h0, gainCell]
  · simp only [h0, if_false, gainCell]
    split <;> rfl

/-- The value of the RSI loss series at a valid index. -/
theorem losses_getD (ys : List ℚ) (j : ℕ) (hj : j < ys.length) :
    ((diffO (ys.map some)).map lossCell).getD j none =
      some (if j = 0 then 0
        else if ys.getD j 0 - ys.getD (j - 1) 0 < 0 then -(ys.getD j 0 - ys.getD (j - 1) 0)
        else 0) := by
  have hlen : j < (diffO (ys.map some)).length := by
    rw [length_diffO, List.length_map]; exact hj
  rw [getD_map_valid lossCell _ j hlen _ none, diffO_mapSome_getD ys j hj]
  by_cases h0 : j = 0
  · simp [h0, lossCell]
  · simp only [h0, if_false, lossCell]
    split <;> rfl

/-- C7: For every price series whose deltas over the 14-bar window are all
non-negative with at least one strictly positive gain, the RSI at that
bar is exactly 100; symmetrically the MFI is exactly 100 at a bar whose
14-bar negative money flow is exactly zero while the positive flow is
positive.  In both cases the zero denominator (`gain/0`, `pos/0`) follows
the IEEE route `100 − 100/(1 + inf) = 100` rather than failing. -/
theorem C7_rsi_mfi_saturate_at_100 :
    (∀ (closes : List ℚ) (i : ℕ), 14 ≤ i → i < closes.length →
      (∀ j, i - 13 ≤ j → j ≤ i → closes.getD (j - 1) 0 ≤ closes.getD j 0) →
      (∃ j, i - 13 ≤ j ∧ j ≤ i ∧ closes.getD (j - 1) 0 < closes.getD j 0) →
      (rsiColO (closes.map some))[i]? = some (some 100))
    ∧ (∀ (tp mf : List (Option ℚ)) (i : ℕ) (p : ℚ),
      (posFlowCol tp mf)[i]? = some (some p) →
      (negFlowCol tp mf)[i]? = some (some 0) → 0 < p →
      (mfiCol tp mf)[i]? = some (some 100)) := by
  constructor
  · intro closes i h14 hi hmono hpos
    have hlen : i < ((diffO (closes.map some)).map gainCell).length := by
      rw [List.length_map, length_diffO, List.length_map]; exact hi
    have hlenl : i < ((diffO (closes.map some)).map lossCell).length := by
      rw [List.length_map, length_diffO, List.length_map]; exact hi
    set gv : ℕ → ℚ := fun j =>
      if j = 0 then 0
      else if 0 < closes.getD j 0 - closes.getD (j - 1) 0 then
        closes.getD j 0 - closes.getD (j - 1) 0
      else 0 with hgv
    set lv : ℕ → ℚ := fun j =>
      if j = 0 then 0
      else if closes.getD j 0 - closes.getD (j - 1) 0 < 0 then
        -(closes.getD j 0 - closes.getD (j - 1) 0)
      else 0 with hlv
    have hgain := rollingMeanO_allSome 14 ((diffO (closes.map some)).map gainCell) gv i
      (fun j hj => gains_getD closes j (by omega)) hlen (by omega)
    have hloss := rollingMeanO_allSome 14 ((diffO (closes.map some)).map lossCell) lv i
      (fun j hj => losses_getD closes j (by omega)) hlenl (by omega)
    have hsumpos : 0 < ((List.range 14).map fun k => gv (i + 1 - 14 + k)).sum := by
      apply sum_rangeMap_pos
      · intro k hk
        simp only [hgv]
        split
        · exact le_refl 0
        · split
          · linarith
          · exact le_refl 0
      · obtain ⟨j, hj1, hj2, hj3⟩ := hpos
        refine ⟨j - (i + 1 - 14), by omega, ?_⟩
        have hjeq : i + 1 - 14 + (j - (i + 1 - 14)) = j := by omega
        rw [hjeq]
        simp only [hgv]
        rw [if_neg (by omega), if_pos (by linarith)]
        linarith
    have hsumzero : ((List.range 14).map fun k => lv (i + 1 - 14 + k)).sum = 0 := by
      apply sum_rangeMap_zero
      intro k hk
      simp only [hlv]
      rw [if_neg (by omega)]
      rw [if_neg (by
        push_neg
        exact sub_nonneg.mpr (hmono (i + 1 - 14 + k) (by omega) (by omega)))]
    unfold rsiColO
    simp only [Config.RSI_PERIOD]
    rw [List.getElem?_zipWith', hgain, hloss]
    simp only [Option.map_some', Option.some_bind]
    rw [hsumzero]
    have hGpos : (0 : ℚ) < ((List.range 14).map fun k => gv (i + 1 - 14 + k)).sum /
        (((14 : ℕ) : ℚ)) := div_pos hsumpos (by norm_num)
    rw [show ((0 : ℚ) / (((14 : ℕ)) : ℚ)) = 0 by norm_num]
    simp [rsiFromGainLoss]
    have hsum13 : (List.map (fun k => gv (i - 13 + k)) (List.range 14)).sum =
        (List.map (fun k => gv (i + 1 - 14 + k)) (List.range 14)).sum := by
      refine congrArg List.sum (List.map_congr_left ?_)
      intro k hk
      have he : i - 13 + k = i + 1 - 14 + k := by omega
      rw [he]
    rw [hsum13]
    exact hsumpos.ne'
  · intro tp mf i p hp hn hppos
    unfold mfiCol
    rw [List.getElem?_zipWith', hp, hn]
    simp only [Option.map_some', Option.some_bind]
    simp [mfiFromFlows, hppos.ne']

/-- A strictly rising 16-bar close series for the RSI witness. -/
def c7closes : List ℚ := [0, 1, 2, 3, 4, 5, 6, 7, 8, 9, 10, 11, 12, 13, 14, 15]

/-- A strictly rising typical-price column for the MFI witness. -/
def c7tp : List (Option ℚ) := [some 1, some 2, some 3, some 4, some 5, some 6, some 7,
  some 8, some 9, some 10, some 11, some 12, some 13, some 14, some 15, some 16]

set_option maxHeartbeats 2000000 in
theorem C7_rsi_mfi_saturate_at_100_witness :
    (rsiColO (c7closes.map some))[15]? = some (some 100) ∧
    (mfiCol c7tp c7tp)[15]? = some (some 100) :=
  ⟨C7_rsi_mfi_saturate_at_100.1 c7closes 15 (by norm_num) (by decide)
      (by
        intro j h1 h2
        have hj2 : 2 ≤ j := by omega
        interval_cases j <;> decide)
      ⟨15, by norm_num, le_refl 15, by decide⟩,
   C7_rsi_mfi_saturate_at_100.2 c7tp c7tp 15 133
      (by
        norm_num [posFlowCol, rollingSumO, posFlowSeries, flowCell, windowAt, oGt, oLt, c7tp,
          List.range_succ, List.getD])
      (by
        norm_num [negFlowCol, rollingSumO, negFlowSeries, flowCell, windowAt, oGt, oLt, c7tp,
          List.range_succ, List.getD])
      (by norm_num)⟩

/-- C8: wherever the bands are defined with `upper > lower`, the Bollinger
position is 0 at the lower band, 1 at the upper band, and strictly
increasing in the close; it is not clamped, so these endpoints and strict
monotonicity also describe its behaviour outside `[0, 1]` when the close
pierces a band. -/
theorem C8_bb_position_endpoints_mono :
    ∀ lower upper : ℚ, lower < upper →
      bbPosition lower lower upper = 0 ∧
      bbPosition upper lower upper = 1 ∧
      StrictMono (fun close => bbPosition close lower upper) := by
  intro lo up h
  refine ⟨by simp [bbPosition], ?_, ?_⟩
  · unfold bbPosition
    rw [div_self (by linarith)]
  · intro x y hxy
    unfold bbPosition
    have hpos : 0 < up - lo := by linarith
    exact (div_lt_div_iff_of_pos_right hpos).mpr (by linarith)

theorem C8_bb_position_endpoints_mono_witness :
    (0 : ℚ) < 2 ∧ bbPosition 0 0 2 = 0 ∧ bbPosition 2 0 2 = 1 ∧
      StrictMono (fun close : ℚ => bbPosition close 0 2) :=
  ⟨by norm_num, (C8_bb_position_endpoints_mono 0 2 (by norm_num)).1,
   (C8_bb_position_endpoints_mono 0 2 (by norm_num)).2.1,
   (C8_bb_position_endpoints_mono 0 2 (by norm_num)).2.2⟩

/-- C1: the overall recommendation is the 0.6/0.4 weighted fusion of the
combined technical signal and the fundamental signal, with score
+strength/−strength/0 for buy/sell/hold, thresholded at ±0.3; an absent
fundamental signal is treated as a hold (strength 0.5) and contributes
exactly 0. -/
theorem C1_overall_recommendation_fusion :
    ∀ tech fund : Option SignalR,
      (_combine_signals tech fund).weighted_score = specOverallScore tech fund ∧
      (_combine_signals tech fund).signal = specOverallCall tech fund ∧
      (fund = none → (_combine_signals tech fund).fundamental_contribution = 0) := by
  intro tech fund
  refine ⟨?_, ?_, ?_⟩
  · rcases tech with _ | t <;> rcases fund with _ | f <;>
      simp [_combine_signals, specOverallScore, specInputScore,
        apply_ite FusedR.weighted_score, ite_self]
  · rcases tech with _ | t <;> rcases fund with _ | f <;>
      simp [_combine_signals, specOverallCall, specOverallScore, specInputScore,
        apply_ite FusedR.signal, ite_self]
  · intro hf
    subst hf
    rcases tech with _ | t <;>
      simp [_combine_signals, apply_ite FusedR.fundamental_contribution, ite_self]

/-- A concrete full-strength technical buy signal. -/
def c1tech : SignalR := ⟨Sig.buy, 1, "strong", none, none⟩

theorem C1_overall_recommendation_fusion_witness :
    (_combine_signals (some c1tech) none).weighted_score = 3 / 5 ∧
    (_combine_signals (some c1tech) none).signal = Sig.buy ∧
    (_combine_signals (some c1tech) none).fundamental_contribution = 0 := by
  obtain ⟨h1, h2, h3⟩ := C1_overall_recommendation_fusion (some c1tech) none
  refine ⟨?_, ?_, h3 rfl⟩
  · rw [h1]
    norm_num [specOverallScore, specInputScore, c1tech]
  · rw [h2]
    norm_num [specOverallCall, specOverallScore, specInputScore, c1tech]

/-- Per-signal score of the source loop agrees with the spec wording. -/
theorem scoreOf_eq_specInputScore (s : SignalR) : scoreOf s = specInputScore (some s) := by
  cases hs : s.signal <;> simp [scoreOf, specInputScore, hs]

theorem specInputScore_none : specInputScore none = 0 := rfl

set_option maxHeartbeats 1000000 in
/-- The accumulation loop of `_generate_combined_signal` over the family
dictionary computes the spec's present-weight total and weighted sum. -/
theorem foldl_combineStep_mkFamilyDict (r m b ma v : Option SignalR) :
    (mkFamilyDict r m b ma v).foldl combineStep (0, 0) =
      ((if r.isSome then (1 : ℚ) / 5 else 0) + (if m.isSome then 1 / 4 else 0) +
        (if b.isSome then 1 / 5 else 0) + (if ma.isSome then 1 / 4 else 0) +
        (if v.isSome then 1 / 10 else 0),
       (1 / 5) * specInputScore r + (1 / 4) * specInputScore m +
        (1 / 5) * specInputScore b + (1 / 4) * specInputScore ma +
        (1 / 10) * specInputScore v) := by
  rcases r with _ | r0 <;> rcases m with _ | m0 <;> rcases b with _ | b0 <;>
    rcases ma with _ | ma0 <;> rcases v with _ | v0 <;>
      simp [mkFamilyDict, combineStep, signal_weights, List.lookup, specInputScore_none,
        ← scoreOf_eq_specInputScore, Prod.ext_iff] <;>
      (try constructor) <;> ring

/-- The renormalization denominator is positive as soon as any family is
present. -/
theorem presentWeight_pos (r m b ma v : Option SignalR)
    (h : r.isSome ∨ m.isSome ∨ b.isSome ∨ ma.isSome ∨ v.isSome) :
    0 < (if r.isSome then (1 : ℚ) / 5 else 0) + (if m.isSome then 1 / 4 else 0) +
      (if b.isSome then 1 / 5 else 0) + (if ma.isSome then 1 / 4 else 0) +
      (if v.isSome then 1 / 10 else 0) := by
  have n1 : (0 : ℚ) ≤ if r.isSome then (1 : ℚ) / 5 else 0 := by split <;> norm_num
  have n2 : (0 : ℚ) ≤ if m.isSome then (1 : ℚ) / 4 else 0 := by split <;> norm_num
  have n3 : (0 : ℚ) ≤ if b.isSome then (1 : ℚ) / 5 else 0 := by split <;> norm_num
  have n4 : (0 : ℚ) ≤ if ma.isSome then (1 : ℚ) / 4 else 0 := by split <;> norm_num
  have n5 : (0 : ℚ) ≤ if v.isSome then (1 : ℚ) / 10 else 0 := by split <;> norm_num
  rcases h with h | h | h | h | h
  · rw [if_pos h] at n1 ⊢
    linarith
  · rw [if_pos h] at n2 ⊢
    linarith
  · rw [if_pos h] at n3 ⊢
    linarith
  · rw [if_pos h] at n4 ⊢
    linarith
  · rw [if_pos h] at n5 ⊢
    linarith

/-- Behaviour of the final thresholding step on any normalized score. -/
theorem combinedVerdict_props (ns : ℚ) :
    (combinedVerdict ns).score = some ns ∧
    ((combinedVerdict ns).signal = Sig.buy ↔ ns > 3 / 10) ∧
    ((combinedVerdict ns).signal = Sig.sell ↔ ns < -(3 / 10)) ∧
    ((combinedVerdict ns).signal = Sig.hold ↔ ¬ns > 3 / 10 ∧ ¬ns < -(3 / 10)) ∧
    (((combinedVerdict ns).signal = Sig.buy ∨ (combinedVerdict ns).signal = Sig.sell) →
      (combinedVerdict ns).strength = min |ns| 1) ∧
    ((combinedVerdict ns).signal = Sig.hold → (combinedVerdict ns).strength = 1 / 2) := by
  unfold combinedVerdict
  split_ifs with h1 h2
  · have habs : |ns| = ns := abs_of_pos (by linarith)
    refine ⟨rfl, ?_, ?_, ?_, ?_, ?_⟩ <;> simp [habs, h1] <;> (try intro h) <;> linarith
  · refine ⟨rfl, ?_, ?_, ?_, ?_, ?_⟩ <;> simp [h1, h2] <;> (try intro h) <;> (try linarith)
  · refine ⟨rfl, ?_, ?_, ?_, ?_, ?_⟩ <;> simp [h1, h2] <;> (try intro h) <;> (try linarith)

/-- C2: the Combined technical signal is the weighted sum of per-family
scores (+strength buy / −strength sell / 0 hold) with weights RSI 0.20,
MACD 0.25, Bollinger 0.20, Moving Averages 0.25, Volume 0.10, divided by
the total weight of the families present; the call is buy iff the
normalized score exceeds 0.3, sell iff below −0.3, else hold, with
strength `min(|score|,1)` for buy/sell and 0.5 for hold; and with only
the MACD and Volume families present the score keeps their 0.25 : 0.10
weight ratio. -/
theorem C2_combined_technical_signal (r m b ma v : Option SignalR)
    (hp : r.isSome ∨ m.isSome ∨ b.isSome ∨ ma.isSome ∨ v.isSome) :
    (_generate_combined_signal (mkFamilyDict r m b ma v)).score =
        some (specCombinedScore r m b ma v) ∧
    ((_generate_combined_signal (mkFamilyDict r m b ma v)).signal = Sig.buy ↔
        specCombinedScore r m b ma v > 3 / 10) ∧
    ((_generate_combined_signal (mkFamilyDict r m b ma v)).signal = Sig.sell ↔
        specCombinedScore r m b ma v < -(3 / 10)) ∧
    ((_generate_combined_signal (mkFamilyDict r m b ma v)).signal = Sig.hold ↔
        ¬specCombinedScore r m b ma v > 3 / 10 ∧
          ¬specCombinedScore r m b ma v < -(3 / 10)) ∧
    (((_generate_combined_signal (mkFamilyDict r m b ma v)).signal = Sig.buy ∨
        (_generate_combined_signal (mkFamilyDict r m b ma v)).signal = Sig.sell) →
      (_generate_combined_signal (mkFamilyDict r m b ma v)).strength =
        min |specCombinedScore r m b ma v| 1) ∧
    ((_generate_combined_signal (mkFamilyDict r m b ma v)).signal = Sig.hold →
      (_generate_combined_signal (mkFamilyDict r m b ma v)).strength = 1 / 2) ∧
    (r = none → b = none → ma = none → m.isSome → v.isSome →
      specCombinedScore r m b ma v =
        ((1 / 4) * specInputScore m + (1 / 10) * specInputScore v) /
          (1 / 4 + 1 / 10)) := by
  have hfold := foldl_combineStep_mkFamilyDict r m b ma v
  have htw := presentWeight_pos r m b ma v hp
  have hne : (mkFamilyDict r m b ma v).isEmpty = false := by
    cases hemp : (mkFamilyDict r m b ma v).isEmpty
    · rfl
    · exfalso
      have hnil : mkFamilyDict r m b ma v = [] := List.isEmpty_iff.mp hemp
      rw [hnil, List.foldl_nil] at hfold
      have := congrArg Prod.fst hfold
      simp only [] at this
      rw [← this] at htw
      exact lt_irrefl 0 htw
  have hmain : _generate_combined_signal (mkFamilyDict r m b ma v) =
      combinedVerdict (specCombinedScore r m b ma v) := by
    unfold _generate_combined_signal
    simp only [hne, Bool.false_eq_true, if_false, hfold]
    rw [if_neg htw.ne']
    rfl
  obtain ⟨p1, p2, p3, p4, p5, p6⟩ := combinedVerdict_props (specCombinedScore r m b ma v)
  rw [hmain]
  refine ⟨p1, p2, p3, p4, p5, p6, ?_⟩
  intro hr hb hma hm hv
  subst hr
  subst hb
  subst hma
  obtain ⟨m0, rfl⟩ := Option.isSome_iff_exists.mp hm
  obtain ⟨v0, rfl⟩ := Option.isSome_iff_exists.mp hv
  unfold specCombinedScore
  simp [specInputScore_none]

/-- A concrete MACD buy signal for the C2 witness. -/
def c2m : SignalR := ⟨Sig.buy, 1, "MACD bullish crossover", none, none⟩

/-- A concrete Volume hold signal for the C2 witness. -/
def c2v : SignalR := ⟨Sig.hold, 1 / 2, "Normal volume", none, none⟩

theorem C2_combined_technical_signal_witness :
    (_generate_combined_signal (mkFamilyDict none (some c2m) none none (some c2v))).score =
        some (5 / 7) ∧
    (_generate_combined_signal (mkFamilyDict none (some c2m) none none (some c2v))).signal =
        Sig.buy := by
  obtain ⟨p1, p2, _, _, _, _, p7⟩ :=
    C2_combined_technical_signal none (some c2m) none none (some c2v) (Or.inr (Or.inl rfl))
  have hS : specCombinedScore none (some c2m) none none (some c2v) = 5 / 7 := by
    norm_num [specCombinedScore, specInputScore, c2m, c2v]
    rw [if_neg (by decide : ¬(Sig.hold = Sig.buy)),
      if_neg (by decide : ¬(Sig.hold = Sig.sell))]
    norm_num
  rw [hS] at p1 p2
  exact ⟨p1, p2.mpr (by norm_num)⟩

theorem length_smaCol (w : Nat) (closes : List ℚ) :
    (smaCol w closes).length = closes.length := by
  simp [smaCol, rollingMeanO]

/-- Full evaluation of the Moving-Averages family signal when the 20- and
50-bar SMAs are present at the last two bars. -/
theorem ma_signal_eval (closes : List ℚ) (a b a' b' : ℚ) (lc l200 : Option ℚ)
    (h2n : ¬closes.length < 2)
    (hc : (closes.map some)[closes.length - 1]? = some lc)
    (h200 : (smaCol 200 closes)[closes.length - 1]? = some l200)
    (hA : (smaCol 20 closes)[closes.length - 1]? = some (some a))
    (hA' : (smaCol 20 closes)[closes.length - 2]? = some (some a'))
    (hB : (smaCol 50 closes)[closes.length - 1]? = some (some b))
    (hB' : (smaCol 50 closes)[closes.length - 2]? = some (some b')) :
    ∃ r, maSignalOf closes = some r ∧
      (r.signal = Sig.buy ∧ r.strength = 8 / 10 ∧
          r.reason = "Golden Cross (20 SMA crosses above 50 SMA)" ↔ a' ≤ b' ∧ b < a) ∧
      (r.signal = Sig.sell ∧ r.strength = 8 / 10 ∧
          r.reason = "Death Cross (20 SMA crosses below 50 SMA)" ↔ b' ≤ a' ∧ a < b) ∧
      (¬(a' ≤ b' ∧ b < a) → ¬(b' ≤ a' ∧ a < b) →
        r.signal = Sig.hold ∧ r.strength = 1 / 2) ∧
      r.trend = some (if oGt lc l200 then "bullish" else "bearish") := by
  have hsimp : ∀ w, iloc1 (smaCol w closes) = (smaCol w closes)[closes.length - 1]? := by
    intro w
    simp [iloc1, length_smaCol]
  have hsimp2 : ∀ w, iloc2 (smaCol w closes) = (smaCol w closes)[closes.length - 2]? := by
    intro w
    simp [iloc2, length_smaCol, h2n]
  have hlc : iloc1 (closes.map some) = some lc := by
    rw [iloc1, List.length_map, hc]
  by_cases h1 : a > b
  · by_cases h2 : a' ≤ b'
    · refine ⟨⟨Sig.buy, 8 / 10, "Golden Cross (20 SMA crosses above 50 SMA)",
        some (if oGt lc l200 then "bullish" else "bearish"), none⟩,
        by simp [maSignalOf, _generate_ma_signals, hsimp, hsimp2, hlc, hA, hA', hB, hB',
          h200, oLe, h1, h2],
        iff_of_true ⟨rfl, rfl, rfl⟩ ⟨h2, h1⟩,
        iff_of_false (by rintro ⟨h, -, -⟩; exact Sig.noConfusion h)
          (by rintro ⟨-, hx⟩; exact lt_asymm h1 hx),
        fun hcon _ => absurd ⟨h2, h1⟩ hcon, rfl⟩
    · refine ⟨⟨Sig.hold, 1 / 2, "No MA crossover",
        some (if oGt lc l200 then "bullish" else "bearish"), none⟩,
        by simp [maSignalOf, _generate_ma_signals, hsimp, hsimp2, hlc, hA, hA', hB, hB',
          h200, oLe, oGe, h1, h2, lt_asymm h1],
        iff_of_false (by rintro ⟨h, -, -⟩; exact Sig.noConfusion h)
          (by rintro ⟨hx, -⟩; exact h2 hx),
        iff_of_false (by rintro ⟨h, -, -⟩; exact Sig.noConfusion h)
          (by rintro ⟨-, hx⟩; exact lt_asymm h1 hx),
        fun _ _ => ⟨rfl, rfl⟩, rfl⟩
  · by_cases h3 : a < b
    · by_cases h4 : b' ≤ a'
      · refine ⟨⟨Sig.sell, 8 / 10, "Death Cross (20 SMA crosses below 50 SMA)",
          some (if oGt lc l200 then "bullish" else "bearish"), none⟩,
          by simp [maSignalOf, _generate_ma_signals, hsimp, hsimp2, hlc, hA, hA', hB, hB',
            h200, oLe, oGe, h1, h3, h4],
          iff_of_false (by rintro ⟨h, -, -⟩; exact Sig.noConfusion h)
            (by rintro ⟨-, hx⟩; exact h1 hx),
          iff_of_true ⟨rfl, rfl, rfl⟩ ⟨h4, h3⟩,
          fun _ hcon => absurd ⟨h4, h3⟩ hcon, rfl⟩
      · refine ⟨⟨Sig.hold, 1 / 2, "No MA crossover",
          some (if oGt lc l200 then "bullish" else "bearish"), none⟩,
          by simp [maSignalOf, _generate_ma_signals, hsimp, hsimp2, hlc, hA, hA', hB, hB',
            h200, oLe, oGe, h1, h3, h4],
          iff_of_false (by rintro ⟨h, -, -⟩; exact Sig.noConfusion h)
            (by rintro ⟨-, hx⟩; exact h1 hx),
          iff_of_false (by rintro ⟨h, -, -⟩; exact Sig.noConfusion h)
            (by rintro ⟨hx, -⟩; exact h4 hx),
          fun _ _ => ⟨rfl, rfl⟩, rfl⟩
    · refine ⟨⟨Sig.hold, 1 / 2, "No MA crossover",
        some (if oGt lc l200 then "bullish" else "bearish"), none⟩,
        by simp [maSignalOf, _generate_ma_signals, hsimp, hsimp2, hlc, hA, hA', hB, hB',
          h200, oLe, oGe, h1, h3],
        iff_of_false (by rintro ⟨h, -, -⟩; exact Sig.noConfusion h)
          (by rintro ⟨-, hx⟩; exact h1 hx),
        iff_of_false (by rintro ⟨h, -, -⟩; exact Sig.noConfusion h)
          (by rintro ⟨-, hx⟩; exact h3 hx),
        fun _ _ => ⟨rfl, rfl⟩, rfl⟩

/-- A present rolling-mean value forces the window to fit: `w ≤ i + 1` and
the index to be in range. -/
theorem rollingMeanO_some_window (w : Nat) (xs : List (Option ℚ)) (i : ℕ) (y : ℚ)
    (h : (rollingMeanO w xs)[i]? = some (some y)) : w ≤ i + 1 ∧ i < xs.length := by
  unfold rollingMeanO at h
  by_cases hi : i < xs.length
  · rw [getElem?_rangeMap _ hi] at h
    refine ⟨?_, hi⟩
    by_contra hw
    rw [if_pos (by omega)] at h
    exact Option.noConfusion (Option.some.inj h)
  · rw [List.getElem?_eq_none (by simpa using (by omega : xs.length ≤ i))] at h
    exact Option.noConfusion h

/-- Before the window fills, a rolling mean cell is present but missing. -/
theorem rollingMeanO_short (w : Nat) (xs : List (Option ℚ)) (i : ℕ)
    (hi : i < xs.length) (hw : i + 1 < w) : (rollingMeanO w xs)[i]? = some none := by
  unfold rollingMeanO
  rw [getElem?_rangeMap _ hi, if_pos hw]

theorem oGt_none (x : Option ℚ) : oGt x none = false := by
  cases x <;> rfl

/-- Evaluation of the Moving-Averages family signal with arbitrary
previous-bar SMA cells: the signal always exists and always carries the
close-versus-SMA-200 trend tag. -/
theorem ma_signal_eval_trend (closes : List ℚ) (a b : ℚ) (pa pb lc l200 : Option ℚ)
    (h2n : ¬closes.length < 2)
    (hc : (closes.map some)[closes.length - 1]? = some lc)
    (h200 : (smaCol 200 closes)[closes.length - 1]? = some l200)
    (hA : (smaCol 20 closes)[closes.length - 1]? = some (some a))
    (hA' : (smaCol 20 closes)[closes.length - 2]? = some pa)
    (hB : (smaCol 50 closes)[closes.length - 1]? = some (some b))
    (hB' : (smaCol 50 closes)[closes.length - 2]? = some pb) :
    ∃ sig str rsn, maSignalOf closes =
      some ⟨sig, str, rsn, some (if oGt lc l200 then "bullish" else "bearish"), none⟩ := by
  have hsimp : ∀ w, iloc1 (smaCol w closes) = (smaCol w closes)[closes.length - 1]? := by
    intro w
    simp [iloc1, length_smaCol]
  have hsimp2 : ∀ w, iloc2 (smaCol w closes) = (smaCol w closes)[closes.length - 2]? := by
    intro w
    simp [iloc2, length_smaCol, h2n]
  have hlc : iloc1 (closes.map some) = some lc := by
    rw [iloc1, List.length_map, hc]
  by_cases h1 : a > b
  · cases hb2 : oLe pa pb
    · exact ⟨Sig.hold, 1 / 2, "No MA crossover",
        by simp [maSignalOf, _generate_ma_signals, hsimp, hsimp2, hlc, hA, hA', hB, hB',
          h200, h1, hb2, lt_asymm h1]⟩
    · exact ⟨Sig.buy, 8 / 10, "Golden Cross (20 SMA crosses above 50 SMA)",
        by simp [maSignalOf, _generate_ma_signals, hsimp, hsimp2, hlc, hA, hA', hB, hB',
          h200, h1, hb2]⟩
  · by_cases h3 : a < b
    · cases hb4 : oGe pa pb
      · exact ⟨Sig.hold, 1 / 2, "No MA crossover",
          by simp [maSignalOf, _generate_ma_signals, hsimp, hsimp2, hlc, hA, hA', hB, hB',
            h200, h1, h3, hb4]⟩
      · exact ⟨Sig.sell, 8 / 10, "Death Cross (20 SMA crosses below 50 SMA)",
          by simp [maSignalOf, _generate_ma_signals, hsimp, hsimp2, hlc, hA, hA', hB, hB',
            h200, h1, h3, hb4]⟩
    · exact ⟨Sig.hold, 1 / 2, "No MA crossover",
        by simp [maSignalOf, _generate_ma_signals, hsimp, hsimp2, hlc, hA, hA', hB, hB',
          h200, h1, h3]⟩

/-- The SMA of a constant series is that constant wherever defined. -/
theorem smaCol_replicate (w n i : ℕ) (c : ℚ) (hw : w ≠ 0) (hi : i < n) (hwi : w ≤ i + 1) :
    (smaCol w (List.replicate n c))[i]? = some (some c) := by
  have hg : ∀ j, j ≤ i → ((List.replicate n c).map some).getD j none = some c := by
    intro j hj
    have hjn : j < n := by omega
    rw [mapSome_getD _ j (by simpa using hjn)]
    congr 1
    simp [List.getD, List.getElem?_replicate, hjn]
  have heval := rollingMeanO_allSome w ((List.replicate n c).map some) (fun _ => c) i hg
    (by simp; omega) hwi
  rw [smaCol, heval]
  congr 2
  have hconst : ((List.range w).map fun _ => c) = List.replicate w c := by
    simp
  rw [hconst, List.sum_replicate, nsmul_eq_mul]
  exact mul_div_cancel_left₀ c (by exact_mod_cast hw)

/-- C5: whenever the 20- and 50-bar SMAs exist at the last two bars, the
Moving-Averages family signal is a strength-0.8 Golden Cross buy exactly
when `SMA20[t−1] ≤ SMA50[t−1]` and `SMA20[t] > SMA50[t]`, a strength-0.8
Death Cross sell exactly under the mirrored condition, and a hold
otherwise. -/
theorem C5_ma_crossover_signal (closes : List ℚ) (a b a' b' : ℚ)
    (hA : (smaCol 20 closes)[closes.length - 1]? = some (some a))
    (hA' : (smaCol 20 closes)[closes.length - 2]? = some (some a'))
    (hB : (smaCol 50 closes)[closes.length - 1]? = some (some b))
    (hB' : (smaCol 50 closes)[closes.length - 2]? = some (some b')) :
    ∃ r, maSignalOf closes = some r ∧
      (r.signal = Sig.buy ∧ r.strength = 8 / 10 ∧
          r.reason = "Golden Cross (20 SMA crosses above 50 SMA)" ↔ a' ≤ b' ∧ b < a) ∧
      (r.signal = Sig.sell ∧ r.strength = 8 / 10 ∧
          r.reason = "Death Cross (20 SMA crosses below 50 SMA)" ↔ b' ≤ a' ∧ a < b) ∧
      (¬(a' ≤ b' ∧ b < a) → ¬(b' ≤ a' ∧ a < b) →
        r.signal = Sig.hold ∧ r.strength = 1 / 2) := by
  obtain ⟨hw, hi⟩ := rollingMeanO_some_window 20 (closes.map some) (closes.length - 2) a' hA'
  rw [List.length_map] at hi
  have h2n : ¬closes.length < 2 := by omega
  have hn1 : closes.length - 1 < (closes.map some).length := by
    rw [List.length_map]
    omega
  have hn1' : closes.length - 1 < (smaCol 200 closes).length := by
    rw [length_smaCol]
    omega
  obtain ⟨r, hr, c1, c2, c3, _⟩ := ma_signal_eval closes a b a' b'
    ((closes.map some).get ⟨closes.length - 1, hn1⟩) ((smaCol 200 closes).get ⟨closes.length - 1, hn1'⟩)
    h2n (List.getElem?_eq_getElem hn1) (List.getElem?_eq_getElem hn1') hA hA' hB hB'
  exact ⟨r, hr, c1, c2, c3⟩

theorem C5_ma_crossover_signal_witness :
    ∃ r, maSignalOf (List.replicate 51 (100 : ℚ)) = some r ∧
      r.signal = Sig.hold ∧ r.strength = 1 / 2 := by
  obtain ⟨r, hr, c1, c2, c3⟩ := C5_ma_crossover_signal (List.replicate 51 (100 : ℚ))
    100 100 100 100
    (smaCol_replicate 20 51 50 100 (by norm_num) (by norm_num) (by norm_num))
    (smaCol_replicate 20 51 49 100 (by norm_num) (by norm_num) (by norm_num))
    (smaCol_replicate 50 51 50 100 (by norm_num) (by norm_num) (by norm_num))
    (smaCol_replicate 50 51 49 100 (by norm_num) (by norm_num) (by norm_num))
  obtain ⟨hs, hstr⟩ := c3 (by rintro ⟨-, hx⟩; exact lt_irrefl _ hx)
    (by rintro ⟨-, hx⟩; exact lt_irrefl _ hx)
  exact ⟨r, hr, hs, hstr⟩

/-- C10: when the 20- and 50-bar SMAs exist at the last bar but the series
is shorter than 200 bars, the SMA-200 cell is missing, its NaN comparison
is false, and the Moving-Averages signal always reports a `bearish`
trend, whatever the prices did. -/
theorem C10_trend_always_bearish_without_sma200 (closes : List ℚ) (a b : ℚ)
    (hA : (smaCol 20 closes)[closes.length - 1]? = some (some a))
    (hB : (smaCol 50 closes)[closes.length - 1]? = some (some b))
    (hshort : closes.length < 200) :
    ∃ r, maSignalOf closes = some r ∧ r.trend = some "bearish" := by
  obtain ⟨hw, hi⟩ := rollingMeanO_some_window 20 (closes.map some) (closes.length - 1) a hA
  rw [List.length_map] at hi
  have h2n : ¬closes.length < 2 := by omega
  have hn1 : closes.length - 1 < (closes.map some).length := by
    rw [List.length_map]
    omega
  have hp20 : closes.length - 2 < (smaCol 20 closes).length := by
    rw [length_smaCol]
    omega
  have hp50 : closes.length - 2 < (smaCol 50 closes).length := by
    rw [length_smaCol]
    omega
  have h200 : (smaCol 200 closes)[closes.length - 1]? = some none :=
    rollingMeanO_short 200 (closes.map some) (closes.length - 1)
      (by rw [List.length_map]; omega) (by omega)
  obtain ⟨sig, str, rsn, heval⟩ := ma_signal_eval_trend closes a b
    ((smaCol 20 closes).get ⟨closes.length - 2, hp20⟩) ((smaCol 50 closes).get ⟨closes.length - 2, hp50⟩)
    ((closes.map some).get ⟨closes.length - 1, hn1⟩) none h2n (List.getElem?_eq_getElem hn1) h200
    hA (List.getElem?_eq_getElem hp20) hB (List.getElem?_eq_getElem hp50)
  refine ⟨_, heval, ?_⟩
  simp [oGt_none]

theorem C10_trend_always_bearish_without_sma200_witness :
    ∃ r, maSignalOf (List.replicate 50 (100 : ℚ)) = some r ∧ r.trend = some "bearish" :=
  C10_trend_always_bearish_without_sma200 (List.replicate 50 (100 : ℚ)) 100 100
    (smaCol_replicate 20 50 49 100 (by norm_num) (by norm_num) (by norm_num))
    (smaCol_replicate 50 50 49 100 (by norm_num) (by norm_num) (by norm_num))
    (by norm_num)

theorem length_ewmMeanOAux (g : ℚ) :
    ∀ (xs : List (Option ℚ)) (num den : ℚ), (ewmMeanOAux g xs num den).length = xs.length := by
  intro xs
  induction xs with
  | nil => intro num den; rfl
  | cons x rest ih =>
    intro num den
    cases x <;> simp [ewmMeanOAux, ih]

theorem length_ewmMeanO (span : ℚ) (xs : List (Option ℚ)) :
    (ewmMeanO span xs).length = xs.length := by
  unfold ewmMeanO
  exact length_ewmMeanOAux _ xs 0 0

theorem macdColsO_lengths (xs : List (Option ℚ)) :
    (macdColsO xs).1.length = xs.length ∧ (macdColsO xs).2.1.length = xs.length ∧
      (macdColsO xs).2.2.length = xs.length := by
  unfold macdColsO
  simp [length_ewmMeanO]

theorem iloc1_some (xs : List (Option ℚ)) (h : 0 < xs.length) : ∃ y, iloc1 xs = some y :=
  ⟨_, List.getElem?_eq_getElem (by omega : xs.length - 1 < xs.length)⟩

theorem iloc2_some (xs : List (Option ℚ)) (h : 2 ≤ xs.length) : ∃ y, iloc2 xs = some y := by
  simp only [iloc2, if_neg (show ¬xs.length < 2 by omega)]
  exact ⟨_, List.getElem?_eq_getElem (by omega : xs.length - 2 < xs.length)⟩

/-- The MACD pipeline on a one-bar series: the line and its signal
coincide (both equal the single close after one EWM step), so the
crossover checks compare `0` with `0` and the result is a strength-0.5
hold. -/
theorem macdSignalOf_singleton (c : ℚ) :
    macdSignalOf [c] = some ⟨Sig.hold, 1 / 2, "MACD no crossover", none, none⟩ := by
  simp [macdSignalOf, macdColsO, ewmMeanO, ewmMeanOAux, _generate_macd_signals, iloc1, oSub]

/-- The MACD family generator never raises on a nonempty close series:
on one bar the line equals its signal so no previous-bar read happens,
and from two bars on the previous-bar reads are in range. -/
theorem macdSignalOf_isSome (closes : List ℚ) (h : closes ≠ []) :
    (macdSignalOf closes).isSome := by
  match closes with
  | [c] =>
    rw [macdSignalOf_singleton]
    rfl
  | c1 :: c2 :: rest =>
    obtain ⟨cols, hcols⟩ : ∃ x, x = macdColsO ((c1 :: c2 :: rest).map some) := ⟨_, rfl⟩
    have hl := macdColsO_lengths ((c1 :: c2 :: rest).map some)
    rw [← hcols] at hl
    obtain ⟨l1, l2, l3⟩ := hl
    have hlen : ((c1 :: c2 :: rest).map some).length = rest.length + 2 := by simp
    obtain ⟨m1, hm1⟩ := iloc1_some cols.1 (by omega)
    obtain ⟨s1, hs1⟩ := iloc1_some cols.2.1 (by omega)
    obtain ⟨hh, hh1⟩ := iloc1_some cols.2.2 (by omega)
    obtain ⟨pm, hpm⟩ := iloc2_some cols.1 (by omega)
    obtain ⟨ps, hps⟩ := iloc2_some cols.2.1 (by omega)
    simp only [macdSignalOf]
    rw [← hcols]
    rcases m1 with _ | m
    · simp [_generate_macd_signals, hm1, hs1, hh1]
    · rcases s1 with _ | s
      · simp [_generate_macd_signals, hm1, hs1, hh1]
      · by_cases hms : m > s
        · cases hle : oLe pm ps <;>
            simp [_generate_macd_signals, hm1, hs1, hh1, hpm, hps, hms, hle, lt_asymm hms]
        · by_cases hsm : m < s
          · cases hge : oGe pm ps <;>
              simp [_generate_macd_signals, hm1, hs1, hh1, hpm, hps, hms, hsm, hge]
          · simp [_generate_macd_signals, hm1, hs1, hh1, hms, hsm]

/-- The Moving-Averages family generator never raises on a nonempty close
series: its `.iloc[-2]` reads are only reached once the latest 20-bar SMA
is present, which already requires 20 bars. -/
theorem maSignalOf_isSome (closes : List ℚ) (h : closes ≠ []) :
    (maSignalOf closes).isSome := by
  have hn : 0 < closes.length := List.length_pos.mpr h
  obtain ⟨lc0, hlc0⟩ := iloc1_some (closes.map some) (by simpa using hn)
  obtain ⟨o20, h20⟩ := iloc1_some (smaCol 20 closes) (by rw [length_smaCol]; omega)
  obtain ⟨o50, h50⟩ := iloc1_some (smaCol 50 closes) (by rw [length_smaCol]; omega)
  obtain ⟨o200, h200⟩ := iloc1_some (smaCol 200 closes) (by rw [length_smaCol]; omega)
  rcases o20 with _ | a
  · simp [maSignalOf, _generate_ma_signals, hlc0, h20, h50, h200]
  · rcases o50 with _ | b
    · simp [maSignalOf, _generate_ma_signals, hlc0, h20, h50, h200]
    · have h20' : (smaCol 20 closes)[closes.length - 1]? = some (some a) := by
        rw [iloc1, length_smaCol] at h20
        exact h20
      have h50' : (smaCol 50 closes)[closes.length - 1]? = some (some b) := by
        rw [iloc1, length_smaCol] at h50
        exact h50
      have h200' : (smaCol 200 closes)[closes.length - 1]? = some o200 := by
        rw [iloc1, length_smaCol] at h200
        exact h200
      have hlc0' : (closes.map some)[closes.length - 1]? = some lc0 := by
        rw [iloc1, List.length_map] at hlc0
        exact hlc0
      obtain ⟨hw, -⟩ := rollingMeanO_some_window 20 (closes.map some) (closes.length - 1) a h20'
      have h2n : ¬closes.length < 2 := by omega
      have hp20 : closes.length - 2 < (smaCol 20 closes).length := by
        rw [length_smaCol]
        omega
      have hp50 : closes.length - 2 < (smaCol 50 closes).length := by
        rw [length_smaCol]
        omega
      obtain ⟨sig, str, rsn, heval⟩ := ma_signal_eval_trend closes a b
        ((smaCol 20 closes).get ⟨closes.length - 2, hp20⟩)
        ((smaCol 50 closes).get ⟨closes.length - 2, hp50⟩) lc0 o200 h2n hlc0' h200' h20'
        (List.getElem?_eq_getElem hp20) h50' (List.getElem?_eq_getElem hp50)
      rw [heval]
      rfl

/-- Below 20 bars every SMA cell consulted by the Moving-Averages
generator is missing and it reports the neutral insufficient-data
signal. -/
theorem maSignalOf_short (closes : List ℚ) (h : closes ≠ []) (hlen : closes.length < 20) :
    maSignalOf closes = some ⟨Sig.neutral, 0, "Insufficient data", none, none⟩ := by
  have hn : 0 < closes.length := List.length_pos.mpr h
  obtain ⟨lc0, hlc0⟩ := iloc1_some (closes.map some) (by simpa using hn)
  have hi : closes.length - 1 < (closes.map some).length := by
    rw [List.length_map]
    omega
  have h20 : iloc1 (smaCol 20 closes) = some none := by
    rw [iloc1, length_smaCol]
    exact rollingMeanO_short 20 (closes.map some) (closes.length - 1) hi (by omega)
  have h50 : iloc1 (smaCol 50 closes) = some none := by
    rw [iloc1, length_smaCol]
    exact rollingMeanO_short 50 (closes.map some) (closes.length - 1) hi (by omega)
  have h200 : iloc1 (smaCol 200 closes) = some none := by
    rw [iloc1, length_smaCol]
    exact rollingMeanO_short 200 (closes.map some) (closes.length - 1) hi (by omega)
  simp [maSignalOf, _generate_ma_signals, hlc0, h20, h50, h200]

/-- C6 (amended): the per-family generators never raise on a nonempty
series — but the insufficient-history fallback differs per family: the
Moving-Averages generator reports neutral with strength 0 below 20 bars,
while the MACD generator's one-bar EWM inputs are already defined and
equal, so a one-bar series yields hold with strength 0.5 (reason
`MACD no crossover`), not strength 0. -/
theorem C6_short_history_family_signals :
    (∀ closes : List ℚ, closes ≠ [] →
      (macdSignalOf closes).isSome ∧ (maSignalOf closes).isSome)
    ∧ (∀ c : ℚ,
      macdSignalOf [c] = some ⟨Sig.hold, 1 / 2, "MACD no crossover", none, none⟩)
    ∧ (∀ closes : List ℚ, closes ≠ [] → closes.length < 20 →
      maSignalOf closes = some ⟨Sig.neutral, 0, "Insufficient data", none, none⟩) :=
  ⟨fun closes h => ⟨macdSignalOf_isSome closes h, maSignalOf_isSome closes h⟩,
   macdSignalOf_singleton,
   maSignalOf_short⟩

/-- C6 counterexample: on a one-bar series — where the previous-bar
values consulted by the MACD crossover check do not exist — the MACD
family signal is a hold of strength 0.5, not a neutral signal of
strength 0 as claimed. -/
theorem C6_counterexample_one_bar_macd_strength :
    macdSignalOf [(100 : ℚ)] = some ⟨Sig.hold, 1 / 2, "MACD no crossover", none, none⟩ ∧
      (1 : ℚ) / 2 ≠ 0 :=
  ⟨macdSignalOf_singleton 100, by norm_num⟩

theorem C6_short_history_family_signals_witness :
    (macdSignalOf [(100 : ℚ)]).isSome ∧
      maSignalOf [(100 : ℚ)] = some ⟨Sig.neutral, 0, "Insufficient data", none, none⟩ :=
  ⟨(C6_short_history_family_signals.1 [100] (by simp)).1,
   C6_short_history_family_signals.2.2 [100] (by simp) (by simp)⟩

theorem lookup_updateAssoc (l : List (String × List (Option ℚ))) (k n : String)
    (v : List (Option ℚ)) :
    (updateAssoc l k v).lookup n = if n = k then some v else l.lookup n := by
  induction l with
  | nil =>
    by_cases h : n = k
    · simp [updateAssoc, List.lookup, h]
    · have hb : (n == k) = false := by simpa using h
      simp [updateAssoc, List.lookup, hb, h]
  | cons hd tl ih =>
    obtain ⟨k', v'⟩ := hd
    by_cases hk : k' = k
    · subst hk
      by_cases h : n = k'
      · simp [updateAssoc, List.lookup, h]
      · have hb : (n == k') = false := by simpa using h
        simp [updateAssoc, List.lookup, hb, h]
    · by_cases h : n = k'
      · subst h
        simp [updateAssoc, hk, List.lookup]
      · have hb : (n == k') = false := by simpa using h
        simp [updateAssoc, hk, List.lookup, hb, ih]

theorem lookup_setCol (df : DataFrame) (k n : String) (v : List (Option ℚ)) :
    (setCol df k v).cols.lookup n = if n = k then some v else df.cols.lookup n :=
  lookup_updateAssoc df.cols k n v

theorem nrows_setCol (df : DataFrame) (k : String) (v : List (Option ℚ)) :
    (setCol df k v).nrows = df.nrows := rfl

/-- C9: deriving the indicator table never touches the price data — the
row count and the five OHLCV columns of the result are exactly those of
the input; every write targets a derived column name. -/
theorem C9_ohlcv_frame_preserved (sqrtQ : ℚ → ℚ) (df : DataFrame) :
    (calculate_all_indicators sqrtQ df).nrows = df.nrows ∧
    (calculate_all_indicators sqrtQ df).cols.lookup "Open" = df.cols.lookup "Open" ∧
    (calculate_all_indicators sqrtQ df).cols.lookup "High" = df.cols.lookup "High" ∧
    (calculate_all_indicators sqrtQ df).cols.lookup "Low" = df.cols.lookup "Low" ∧
    (calculate_all_indicators sqrtQ df).cols.lookup "Close" = df.cols.lookup "Close" ∧
    (calculate_all_indicators sqrtQ df).cols.lookup "Volume" = df.cols.lookup "Volume" := by
  unfold calculate_all_indicators
  split_ifs with h1 h2
  · exact ⟨rfl, rfl, rfl, rfl, rfl, rfl⟩
  · refine ⟨?_, ?_, ?_, ?_, ?_, ?_⟩ <;>
      simp [_calculate_moving_averages, _calculate_rsi, _calculate_macd,
        _calculate_bollinger_bands, _calculate_stochastic, _calculate_williams_r,
        _calculate_atr, _calculate_volume_indicators, _calculate_momentum_indicators,
        _calculate_trend_indicators, lookup_setCol, nrows_setCol]
  · exact ⟨rfl, rfl, rfl, rfl, rfl, rfl⟩

/-- C3 (amended): a non-empty frame missing a required OHLCV column makes
`calculate_all_indicators` log the missing column and return its input
unchanged — no derived columns and no exception; the source defines no
`MissingColumnError` (or any other exception type) for this case. -/
theorem C3_missing_column_returns_input (sqrtQ : ℚ → ℚ) (df : DataFrame)
    (hne : df.isEmpty = false) (hmiss : requiredCols.all (hasCol df) = false) :
    calculate_all_indicators sqrtQ df = df := by
  unfold calculate_all_indicators
  simp [hne, hmiss]

/-- A three-bar frame with no `Volume` column. -/
def dfNoVolume : DataFrame :=
  ⟨3, [("Open", [some 1, some 2, some 3]), ("High", [some 2, some 3, some 4]),
       ("Low", [some 1, some 1, some 2]), ("Close", [some 2, some 2, some 3])]⟩

/-- C3 counterexample: on a concrete non-empty series lacking `Volume`,
indicator computation does not fail with a `MissingColumnError` (none
exists); it returns a result — the input unchanged. -/
theorem C3_counterexample_no_error_on_missing_column :
    calculate_all_indicators (fun q => q) dfNoVolume = dfNoVolume := by
  rfl

/-- A two-bar frame with no `High` column. -/
def dfNoHigh : DataFrame :=
  ⟨2, [("Open", [some 1, some 2]), ("Low", [some 1, some 1]),
       ("Close", [some 2, some 2]), ("Volume", [some 5, some 6])]⟩

theorem C3_missing_column_returns_input_witness :
    calculate_all_indicators (fun q => q) dfNoHigh = dfNoHigh :=
  C3_missing_column_returns_input (fun q => q) dfNoHigh rfl rfl

/-- C4: an empty price frame short-circuits all three stages — the
indicator computation returns its (empty) input, pattern detection
returns the empty collection, and signal generation returns the empty
signal set; all three embeddings are total functions, so no exception is
possible. -/
theorem C4_empty_series_short_circuits (sqrtQ : ℚ → ℚ) (df : DataFrame)
    (h : df.isEmpty = true) :
    calculate_all_indicators sqrtQ df = df ∧ detect_patterns df = [] ∧
      generate_signals df = [] := by
  refine ⟨?_, ?_, ?_⟩ <;>
    simp [calculate_all_indicators, detect_patterns, generate_signals, h]

theorem C4_empty_series_short_circuits_witness :
    (⟨0, []⟩ : DataFrame).isEmpty = true ∧
      calculate_all_indicators (fun q => q) ⟨0, []⟩ = ⟨0, []⟩ ∧
      detect_patterns ⟨0, []⟩ = [] ∧ generate_signals ⟨0, []⟩ = [] :=
  ⟨rfl, (C4_empty_series_short_circuits (fun q => q) ⟨0, []⟩ rfl).1,
   (C4_empty_series_short_circuits (fun q => q) ⟨0, []⟩ rfl).2.1,
   (C4_empty_series_short_circuits (fun q => q) ⟨0, []⟩ rfl).2.2⟩
